import Mathlib

/-!
Verification of the static triage core of the `detox-bouncer` scanner
(`core/triage/pipeline.py`, `metadata_scanner.py`, `forensic_check.py`,
`ai_vibe_check.py`, `core/reporting/threat_report.py`).

Python floats are modelled as exact rationals (`ℚ`), strings as Lean
`String`s (with character-level reasoning on `List Char` where the source
does substring work), and Python exceptions as `Except`.
-/

namespace Detox

/-- A pipeline-level finding as counted by `TriagePipeline.run`
(Python dicts with a `"severity"` key; the pipeline only reads that key,
`check_name`/`description` carry the rest of the metadata-scanner dicts). -/
structure Finding where
  severity : String
  check_name : String := ""
  description : String := ""
  file_path : Option String := none
  deriving Repr, DecidableEq

/-- `MetadataScanResult` restricted to the fields `TriagePipeline.run` reads
(`risk_score`, `extension_id`, `version`, `findings`). -/
structure MetadataScanResult where
  extension_id : String := "unknown"
  version : String := "unknown"
  findings : List Finding := []
  risk_score : ℚ := 0
  deriving Repr, DecidableEq

/-- A `ForensicFinding` from `forensic_check.py`. -/
structure ForensicFinding where
  severity : String
  check_name : String
  description : String := ""
  file_path : String := ""
  detected_type : String := ""
  expected_types : String := ""
  deriving Repr, DecidableEq

/-- `ForensicScanResult` from `forensic_check.py`. -/
structure ForensicScanResult where
  files_scanned : ℕ := 0
  findings : List ForensicFinding := []
  hidden_executables : List String := []
  magic_mismatches : List String := []
  risk_score : ℚ := 0
  deriving Repr, DecidableEq

/-- A `RuleFinding` from `yara_engine.py` restricted to the fields read by
the pipeline and by `AIVibeChecker.analyze_vsix`
(`severity`, `rule_name`, `file_path`). -/
structure RuleFinding where
  severity : String
  rule_name : String := ""
  file_path : String := ""
  deriving Repr, DecidableEq

/-- `YaraScanResult` restricted to the fields the pipeline reads. -/
structure YaraScanResult where
  findings : List RuleFinding := []
  rules_matched : ℕ := 0
  risk_score : ℚ := 0
  deriving Repr, DecidableEq

/-- The AI result dict, restricted to the keys the pipeline reads
(`risk_score`, `verdict`, `error`); `none` models an absent key. -/
structure AIDict where
  risk_score? : Option ℚ := none
  verdict? : Option String := none
  error? : Option String := none
  deriving Repr, DecidableEq

/-- The outcome of each of the four stages as observed by the
`try`/`except` blocks of `TriagePipeline.run`: either the stage's
return value or the raised exception's message. -/
structure StageOutcomes where
  metadataO : Except String MetadataScanResult
  forensicO : Except String ForensicScanResult
  yaraO : Except String YaraScanResult
  aiO : Except String AIDict

/-- An escalation reason; the Python code stores formatted strings, here
modelled as tagged values carrying the same data. -/
inductive EscReason where
  | criticalFindings (n : ℕ)
  | highFindings (n : ℕ)
  | compositeRisk (q : ℚ)
  | aiVerdict (v : String)
  deriving Repr, DecidableEq

/-- `TriageResult` from `pipeline.py`. -/
structure TriageResult where
  extension_id : String := ""
  version : String := ""
  vsix_path : String := ""
  metadata_result : Option MetadataScanResult := none
  forensic_result : Option ForensicScanResult := none
  yara_result : Option YaraScanResult := none
  ai_result : AIDict := {}
  metadata_risk : ℚ := 0
  forensic_risk : ℚ := 0
  yara_risk : ℚ := 0
  ai_risk : ℚ := 0
  composite_risk : ℚ := 0
  verdict : String := "UNKNOWN"
  total_findings : ℕ := 0
  high_findings : ℕ := 0
  critical_findings : ℕ := 0
  escalate_to_chamber : Bool := false
  escalation_reasons : List EscReason := []
  deriving Repr, DecidableEq

/-- The pipeline scoring weights built by `TriagePipeline.__init__`. -/
structure Weights where
  ai_vibe : ℚ
  static : ℚ
  yara : ℚ
  metadata : ℚ
  deriving Repr, DecidableEq

/-- The default weights (`config.get` defaults in `TriagePipeline.__init__`). -/
def defaultWeights : Weights :=
  { ai_vibe := 35/100, static := 25/100, yara := 25/100, metadata := 15/100 }

/-- `TriagePipeline.ESCALATION_THRESHOLD`. -/
def ESCALATION_THRESHOLD : ℚ := 4/10

/-- `TriagePipeline.AUTO_MALICIOUS_THRESHOLD`. -/
def AUTO_MALICIOUS_THRESHOLD : ℚ := 8/10

/-- The metadata risk recorded by step 1 of `TriagePipeline.run`
(`meta.risk_score` on success, the `0.5` fallback when the stage raises). -/
def metaRiskOf : Except String MetadataScanResult → ℚ
  | .ok m => m.risk_score
  | .error _ => 1/2

/-- The forensic risk recorded by step 2 of `TriagePipeline.run`
(`forensic_res.risk_score` on success, `0.0` when the stage raises). -/
def forensicRiskOf : Except String ForensicScanResult → ℚ
  | .ok f => f.risk_score
  | .error _ => 0

/-- The YARA risk recorded by step 3 of `TriagePipeline.run`. -/
def yaraRiskOf : Except String YaraScanResult → ℚ
  | .ok y => y.risk_score
  | .error _ => 0

/-- The AI risk recorded by step 4 of `TriagePipeline.run`
(`ai_res.get("risk_score", 0.0)` on success, `0.0` when skipped or raised). -/
def aiRiskOf (skip_ai : Bool) (o : Except String AIDict) : ℚ :=
  if skip_ai then 0
  else match o with
    | .ok a => a.risk_score?.getD 0
    | .error _ => 0

/-- The `ai_result` dict recorded by step 4 of `TriagePipeline.run`. -/
def aiResultOf (skip_ai : Bool) (o : Except String AIDict) : AIDict :=
  if skip_ai then { verdict? := some "SKIPPED", risk_score? := some 0 }
  else match o with
    | .ok a => a
    | .error e => { verdict? := some "ERROR", error? := some e }

/-- The `all_findings` list the pipeline counts severities over
(metadata findings verbatim, forensic/YARA findings projected to their
severity, absent sub-results contributing nothing). -/
def stageFindings (st : StageOutcomes) : List Finding :=
  (match st.metadataO with | .ok m => m.findings | .error _ => [])
  ++ (match st.forensicO with
      | .ok f => f.findings.map (fun g => { severity := g.severity })
      | .error _ => [])
  ++ (match st.yaraO with
      | .ok y => y.findings.map (fun g => { severity := g.severity })
      | .error _ => [])

/-- The composite risk computed by `TriagePipeline.run` (pipeline.py
lines 184-190): the weighted sum capped at `1.0` by `min`. -/
def compositeOf (w : Weights) (skip_ai : Bool) (st : StageOutcomes) : ℚ :=
  min (aiRiskOf skip_ai st.aiO * w.ai_vibe
    + (metaRiskOf st.metadataO + forensicRiskOf st.forensicO) / 2 * w.static
    + yaraRiskOf st.yaraO * w.yara
    + metaRiskOf st.metadataO * w.metadata) 1

/-- The verdict chosen by `TriagePipeline.run` (pipeline.py lines 210-217). -/
def verdictOf (composite : ℚ) (nCritical : ℕ) : String :=
  if AUTO_MALICIOUS_THRESHOLD ≤ composite then "MALICIOUS"
  else if ESCALATION_THRESHOLD ≤ composite then "SUSPICIOUS"
  else if 0 < nCritical then "SUSPICIOUS"
  else "CLEAN"

/-- `TriagePipeline.run` (pipeline.py lines 91-239), as a function of the
four stage outcomes: each stage call sits in its own `try`/`except`, so the
observable behaviour of `run` is fully determined by the four outcomes.
Each field is assembled exactly as by the corresponding assignment in the
Python method; the escalation block (lines 219-230) only fires for
MALICIOUS/SUSPICIOUS verdicts. -/
def TriagePipeline.run (weights : Weights) (skip_ai : Bool) (vsix_path : String)
    (st : StageOutcomes) : TriageResult :=
  let allFindings := stageFindings st
  let nHigh := (allFindings.filter (fun f => f.severity = "HIGH")).length
  let nCritical := (allFindings.filter (fun f => f.severity = "CRITICAL")).length
  let composite := compositeOf weights skip_ai st
  let verdict := verdictOf composite nCritical
  let escalating : Bool := verdict == "MALICIOUS" || verdict == "SUSPICIOUS"
  { extension_id := match st.metadataO with | .ok m => m.extension_id | .error _ => ""
    version := match st.metadataO with | .ok m => m.version | .error _ => ""
    vsix_path := vsix_path
    metadata_result := match st.metadataO with | .ok m => some m | .error _ => none
    forensic_result := match st.forensicO with | .ok f => some f | .error _ => none
    yara_result := match st.yaraO with | .ok y => some y | .error _ => none
    ai_result := aiResultOf skip_ai st.aiO
    metadata_risk := metaRiskOf st.metadataO
    forensic_risk := forensicRiskOf st.forensicO
    yara_risk := yaraRiskOf st.yaraO
    ai_risk := aiRiskOf skip_ai st.aiO
    composite_risk := composite
    verdict := verdict
    total_findings := allFindings.length
    high_findings := nHigh
    critical_findings := nCritical
    escalate_to_chamber := escalating
    escalation_reasons :=
      if escalating then
        (if 0 < nCritical then [EscReason.criticalFindings nCritical] else [])
        ++ (if 3 ≤ nHigh then [EscReason.highFindings nHigh] else [])
        ++ (if ESCALATION_THRESHOLD ≤ composite then [EscReason.compositeRisk composite] else [])
        ++ (let v := (aiResultOf skip_ai st.aiO).verdict?.getD ""
            if v = "MALICIOUS" ∨ v = "SUSPICIOUS" then [EscReason.aiVerdict v] else [])
      else [] }

lemma run_metadata_risk (w : Weights) (sk : Bool) (p : String) (st : StageOutcomes) :
    (TriagePipeline.run w sk p st).metadata_risk = metaRiskOf st.metadataO := rfl

lemma run_forensic_risk (w : Weights) (sk : Bool) (p : String) (st : StageOutcomes) :
    (TriagePipeline.run w sk p st).forensic_risk = forensicRiskOf st.forensicO := rfl

lemma run_yara_risk (w : Weights) (sk : Bool) (p : String) (st : StageOutcomes) :
    (TriagePipeline.run w sk p st).yara_risk = yaraRiskOf st.yaraO := rfl

lemma run_ai_risk (w : Weights) (sk : Bool) (p : String) (st : StageOutcomes) :
    (TriagePipeline.run w sk p st).ai_risk = aiRiskOf sk st.aiO := rfl

lemma run_ai_result (w : Weights) (sk : Bool) (p : String) (st : StageOutcomes) :
    (TriagePipeline.run w sk p st).ai_result = aiResultOf sk st.aiO := rfl

lemma run_metadata_result (w : Weights) (sk : Bool) (p : String) (st : StageOutcomes) :
    (TriagePipeline.run w sk p st).metadata_result =
      (match st.metadataO with | .ok m => some m | .error _ => none) := rfl

lemma run_forensic_result (w : Weights) (sk : Bool) (p : String) (st : StageOutcomes) :
    (TriagePipeline.run w sk p st).forensic_result =
      (match st.forensicO with | .ok f => some f | .error _ => none) := rfl

lemma run_yara_result (w : Weights) (sk : Bool) (p : String) (st : StageOutcomes) :
    (TriagePipeline.run w sk p st).yara_result =
      (match st.yaraO with | .ok y => some y | .error _ => none) := rfl

lemma run_composite (w : Weights) (sk : Bool) (p : String) (st : StageOutcomes) :
    (TriagePipeline.run w sk p st).composite_risk = compositeOf w sk st := rfl

lemma run_critical_findings (w : Weights) (sk : Bool) (p : String) (st : StageOutcomes) :
    (TriagePipeline.run w sk p st).critical_findings =
      ((stageFindings st).filter (fun f => f.severity = "CRITICAL")).length := rfl

lemma run_verdict (w : Weights) (sk : Bool) (p : String) (st : StageOutcomes) :
    (TriagePipeline.run w sk p st).verdict =
      verdictOf (compositeOf w sk st)
        (((stageFindings st).filter (fun f => f.severity = "CRITICAL")).length) := rfl


/-- C1: For every triage run, the composite risk equals
`ai_risk * w_ai + ((metadata_risk + forensic_risk) / 2) * w_static
+ yara_risk * w_yara + metadata_risk * w_metadata` (defaults 0.35, 0.25,
0.25, 0.15), with the sum capped at 1.0, so the metadata risk is weighted
twice (once inside the static pair and once as the metadata-specific
signal). -/
theorem C1_pipeline_composite_formula (w : Weights) (sk : Bool) (p : String)
    (st : StageOutcomes) :
    ((TriagePipeline.run w sk p st).composite_risk =
      min ((TriagePipeline.run w sk p st).ai_risk * w.ai_vibe
        + ((TriagePipeline.run w sk p st).metadata_risk
            + (TriagePipeline.run w sk p st).forensic_risk) / 2 * w.static
        + (TriagePipeline.run w sk p st).yara_risk * w.yara
        + (TriagePipeline.run w sk p st).metadata_risk * w.metadata) 1)
    ∧ defaultWeights.ai_vibe = 35/100 ∧ defaultWeights.static = 25/100
    ∧ defaultWeights.yara = 25/100 ∧ defaultWeights.metadata = 15/100 :=
  ⟨rfl, rfl, rfl, rfl, rfl⟩

/-- Stage outcomes in which every stage succeeds with zero risk except the
AI stage, whose parsed JSON response carries `risk_score = -10`. -/
def aiNegStages : StageOutcomes :=
  { metadataO := .ok {}, forensicO := .ok {}, yaraO := .ok {},
    aiO := .ok { risk_score? := some (-10), verdict? := some "CLEAN" } }

/-- C2 is false as stated: when the AI stage's parsed JSON supplies a
negative `risk_score`, the pipeline's composite (capped only from above by
`min(., 1.0)`) leaves `[0,1]`: here it is `-7/2`. -/
theorem C2_negative_ai_counterexample :
    (TriagePipeline.run defaultWeights false "pkg.vsix" aiNegStages).composite_risk = -7/2
    ∧ ¬ (0 ≤ (TriagePipeline.run defaultWeights false "pkg.vsix" aiNegStages).composite_risk) := by
  rw [run_composite]
  norm_num [compositeOf, defaultWeights, aiRiskOf, metaRiskOf, forensicRiskOf, yaraRiskOf,
    aiNegStages, min_def]

/-- C2 (amended): every triage run — for every config and stage outcome —
terminates with a verdict among the five documented codes and a composite
at most 1 (only the upper cap `min(., 1.0)` is applied); the composite
additionally lies in `[0,1]` whenever the configured weights are
nonnegative (the defaults are) and every stage risk that enters it — in
particular the AI stage's parsed `risk_score`, which the code does not
clamp — lies in `[0,1]`. -/
theorem C2_pipeline_range_amended (w : Weights) (sk : Bool) (p : String)
    (st : StageOutcomes) :
    ((TriagePipeline.run w sk p st).verdict ∈
        ["CLEAN", "SUSPICIOUS", "MALICIOUS", "UNKNOWN", "ERROR"]
      ∧ (TriagePipeline.run w sk p st).composite_risk ≤ 1)
    ∧ ((0 ≤ w.ai_vibe ∧ 0 ≤ w.static ∧ 0 ≤ w.yara ∧ 0 ≤ w.metadata) →
        (∀ m, st.metadataO = .ok m → 0 ≤ m.risk_score ∧ m.risk_score ≤ 1) →
        (∀ f, st.forensicO = .ok f → 0 ≤ f.risk_score ∧ f.risk_score ≤ 1) →
        (∀ y, st.yaraO = .ok y → 0 ≤ y.risk_score ∧ y.risk_score ≤ 1) →
        (∀ a q, st.aiO = .ok a → a.risk_score? = some q → 0 ≤ q ∧ q ≤ 1) →
        0 ≤ (TriagePipeline.run w sk p st).composite_risk) := by
  constructor
  · constructor
    · rw [run_verdict]; unfold verdictOf; split
      · simp
      · split
        · simp
        · split <;> simp
    · rw [run_composite]
      exact min_le_right _ _
  · intro hw hm hf hy ha
    have hm' : 0 ≤ metaRiskOf st.metadataO := by
      cases h : st.metadataO with
      | ok m => simpa [metaRiskOf] using (hm m h).1
      | error e => norm_num [metaRiskOf]
    have hf' : 0 ≤ forensicRiskOf st.forensicO := by
      cases h : st.forensicO with
      | ok f => simpa [forensicRiskOf] using (hf f h).1
      | error e => norm_num [forensicRiskOf]
    have hy' : 0 ≤ yaraRiskOf st.yaraO := by
      cases h : st.yaraO with
      | ok y => simpa [yaraRiskOf] using (hy y h).1
      | error e => norm_num [yaraRiskOf]
    have ha' : 0 ≤ aiRiskOf sk st.aiO := by
      cases sk with
      | true => norm_num [aiRiskOf]
      | false =>
        cases h : st.aiO with
        | ok a =>
          cases hq : a.risk_score? with
          | some q => simpa [aiRiskOf, hq] using (ha a q h hq).1
          | none => norm_num [aiRiskOf, hq]
        | error e => norm_num [aiRiskOf]
    rw [run_composite]
    unfold compositeOf
    refine le_min ?_ (by norm_num)
    have t1 : 0 ≤ aiRiskOf sk st.aiO * w.ai_vibe := mul_nonneg ha' hw.1
    have t2 : 0 ≤ (metaRiskOf st.metadataO + forensicRiskOf st.forensicO) / 2 * w.static :=
      mul_nonneg (div_nonneg (add_nonneg hm' hf') (by norm_num)) hw.2.1
    have t3 : 0 ≤ yaraRiskOf st.yaraO * w.yara := mul_nonneg hy' hw.2.2.1
    have t4 : 0 ≤ metaRiskOf st.metadataO * w.metadata := mul_nonneg hm' hw.2.2.2
    linarith

/-- Stage outcomes witnessing the amended C2: every stage succeeds with a
risk of 1/2. -/
def stOkWitness : StageOutcomes :=
  { metadataO := .ok { risk_score := 1/2 }, forensicO := .ok { risk_score := 1/2 },
    yaraO := .ok { risk_score := 1/2 }, aiO := .ok { risk_score? := some (1/2) } }

/-- Witness for the amended C2 at the default weights and concrete
in-range stage outcomes. -/
theorem C2_pipeline_range_witness :
    ((TriagePipeline.run defaultWeights false "pkg.vsix" stOkWitness).verdict ∈
        ["CLEAN", "SUSPICIOUS", "MALICIOUS", "UNKNOWN", "ERROR"]
      ∧ (TriagePipeline.run defaultWeights false "pkg.vsix" stOkWitness).composite_risk ≤ 1)
    ∧ 0 ≤ (TriagePipeline.run defaultWeights false "pkg.vsix" stOkWitness).composite_risk :=
  ⟨(C2_pipeline_range_amended defaultWeights false "pkg.vsix" stOkWitness).1,
   (C2_pipeline_range_amended defaultWeights false "pkg.vsix" stOkWitness).2
    ⟨by norm_num [defaultWeights], by norm_num [defaultWeights],
     by norm_num [defaultWeights], by norm_num [defaultWeights]⟩
    (fun m h => by injection h with h; subst h; exact ⟨by norm_num, by norm_num⟩)
    (fun f h => by injection h with h; subst h; exact ⟨by norm_num, by norm_num⟩)
    (fun y h => by injection h with h; subst h; exact ⟨by norm_num, by norm_num⟩)
    (fun a q h hq => by
      injection h with h; subst h
      injection hq with hq; subst hq
      exact ⟨by norm_num, by norm_num⟩)⟩

/-- Stage outcomes in which the metadata stage raises and every other stage
succeeds with zero risk. -/
def stMetaFailCE : StageOutcomes :=
  { metadataO := .error "scan raised", forensicO := .ok {}, yaraO := .ok {},
    aiO := .ok { risk_score? := some 0 } }

/-- C3 is false as stated: a failing ManifestScanner stage contributes its
0.5 fallback risk, not 0 — with every other stage at risk 0 the composite is
11/80, not 0. -/
theorem C3_metadata_failure_counterexample :
    (TriagePipeline.run defaultWeights false "pkg.vsix" stMetaFailCE).metadata_risk = 1/2
    ∧ (TriagePipeline.run defaultWeights false "pkg.vsix" stMetaFailCE).composite_risk = 11/80
    ∧ (TriagePipeline.run defaultWeights false "pkg.vsix" stMetaFailCE).composite_risk ≠ 0 := by
  rw [run_metadata_risk, run_composite]
  norm_num [compositeOf, defaultWeights, aiRiskOf, metaRiskOf, forensicRiskOf, yaraRiskOf,
    stMetaFailCE, min_def]

/-- C3 (amended): in every triage run an exception in one stage does not
abort the others — each recorded risk depends only on its own stage's
outcome. A failing ManifestScanner contributes the fallback risk 0.5 with
its result field left absent; a failing ForensicChecker or RuleEngine
contributes 0 with its result field left absent; a failing AIAnalyzer
contributes 0 and is the only failure recorded in the `TriageResult`
(`ai_result` with verdict ERROR). -/
theorem C3_stage_failure_amended (w : Weights) (p : String) (st : StageOutcomes) :
    (TriagePipeline.run w false p st).metadata_risk = metaRiskOf st.metadataO
    ∧ (TriagePipeline.run w false p st).forensic_risk = forensicRiskOf st.forensicO
    ∧ (TriagePipeline.run w false p st).yara_risk = yaraRiskOf st.yaraO
    ∧ (TriagePipeline.run w false p st).ai_risk = aiRiskOf false st.aiO
    ∧ (∀ e, st.metadataO = .error e →
        (TriagePipeline.run w false p st).metadata_risk = 1/2
        ∧ (TriagePipeline.run w false p st).metadata_result = none)
    ∧ (∀ e, st.forensicO = .error e →
        (TriagePipeline.run w false p st).forensic_risk = 0
        ∧ (TriagePipeline.run w false p st).forensic_result = none)
    ∧ (∀ e, st.yaraO = .error e →
        (TriagePipeline.run w false p st).yara_risk = 0
        ∧ (TriagePipeline.run w false p st).yara_result = none)
    ∧ (∀ e, st.aiO = .error e →
        (TriagePipeline.run w false p st).ai_risk = 0
        ∧ (TriagePipeline.run w false p st).ai_result.verdict? = some "ERROR") := by
  refine ⟨run_metadata_risk w false p st, run_forensic_risk w false p st,
    run_yara_risk w false p st, run_ai_risk w false p st, ?_, ?_, ?_, ?_⟩
  · intro e h
    refine ⟨?_, ?_⟩
    · rw [run_metadata_risk, h]; rfl
    · rw [run_metadata_result, h]
  · intro e h
    refine ⟨?_, ?_⟩
    · rw [run_forensic_risk, h]; rfl
    · rw [run_forensic_result, h]
  · intro e h
    refine ⟨?_, ?_⟩
    · rw [run_yara_risk, h]; rfl
    · rw [run_yara_result, h]
  · intro e h
    refine ⟨?_, ?_⟩
    · rw [run_ai_risk, h]; rfl
    · rw [run_ai_result, h]; rfl

/-- Stage outcomes where metadata, YARA and AI all raise and the forensic
stage succeeds with risk 3/10. -/
def stMixedFail : StageOutcomes :=
  { metadataO := .error "scan raised", forensicO := .ok { risk_score := 3/10 },
    yaraO := .error "rules raised", aiO := .error "ai raised" }

/-- Witness for the amended C3 at concrete mixed stage outcomes: the
surviving forensic stage's risk is recorded from its own outcome while the
three failing stages take their fallbacks, with only the AI failure
recorded. -/
theorem C3_stage_failure_witness :
    (TriagePipeline.run defaultWeights false "pkg.vsix" stMixedFail).metadata_risk
        = metaRiskOf stMixedFail.metadataO
    ∧ (TriagePipeline.run defaultWeights false "pkg.vsix" stMixedFail).forensic_risk
        = forensicRiskOf stMixedFail.forensicO
    ∧ ((TriagePipeline.run defaultWeights false "pkg.vsix" stMixedFail).metadata_risk = 1/2
        ∧ (TriagePipeline.run defaultWeights false "pkg.vsix" stMixedFail).metadata_result = none)
    ∧ ((TriagePipeline.run defaultWeights false "pkg.vsix" stMixedFail).yara_risk = 0
        ∧ (TriagePipeline.run defaultWeights false "pkg.vsix" stMixedFail).yara_result = none)
    ∧ ((TriagePipeline.run defaultWeights false "pkg.vsix" stMixedFail).ai_risk = 0
        ∧ (TriagePipeline.run defaultWeights false "pkg.vsix" stMixedFail).ai_result.verdict?
            = some "ERROR") :=
  have h := C3_stage_failure_amended defaultWeights "pkg.vsix" stMixedFail
  ⟨h.1, h.2.1,
   h.2.2.2.2.1 "scan raised" rfl,
   h.2.2.2.2.2.2.1 "rules raised" rfl,
   h.2.2.2.2.2.2.2 "ai raised" rfl⟩

/-- A ZIP entry as seen through `zipfile.ZipInfo`: stored filename,
declared uncompressed size, directory flag, and (for `zf.read`) the entry
bytes. -/
structure ZipInfo where
  filename : String
  file_size : ℕ := 0
  is_dir : Bool := false
  data : List ℕ := []
  deriving Repr, DecidableEq

/-- A VSIX archive on disk: whether the path exists (`os.path.exists`),
whether opening it succeeds (`zipfile.BadZipFile` is raised iff not), the
entry list in archive order, and — for the metadata scanner — the
`MetadataScanResult` that the manifest-parsing remainder of
`MetadataScanner.scan_vsix` (package.json extraction, lifecycle and source
scans, risk scoring) would build from the archive contents. That remainder
is not needed by any claim: every claim settled against `scan_vsix` is
decided before `metaScanRest` is consulted, or holds for all its values. -/
structure Archive where
  exists_on_disk : Bool := true
  is_valid_zip : Bool := true
  entries : List ZipInfo := []
  metaScanRest : MetadataScanResult := {}
  deriving Repr, DecidableEq

/-- A Python exception as raised by the metadata scanner. -/
inductive PyErr where
  | fileNotFound (msg : String)
  | valueError (msg : String)
  deriving Repr, DecidableEq

/-- `str(e)` for a raised exception. -/
def PyErr.message : PyErr → String
  | .fileNotFound m => m
  | .valueError m => m

/-- The zip-bomb cap of `_validate_zip_paths`: 500 MiB. -/
def ZIP_BOMB_LIMIT : ℕ := 500 * 1024 * 1024

/-- The per-entry name test of `_validate_zip_paths`
(metadata_scanner.py line 183): `name.startswith('/') or '..' in name`.
Python `in` on strings is substring containment, so any filename containing
two consecutive dots anywhere trips it. -/
def violatesName (name : String) : Bool :=
  (match name.data with | [] => false | c :: _ => c = '/')
    || decide (['.', '.'] <:+: name.data)

/-- `MetadataScanner._validate_zip_paths` (metadata_scanner.py lines
179-187): walks `zf.infolist()` in order and raises `ValueError` at the
first entry whose name violates the zip-slip test or whose declared
uncompressed size exceeds 500 MiB (the raised message carries the
offending filename). -/
def validateZipPaths : List ZipInfo → Except PyErr Unit
  | [] => .ok ()
  | info :: rest =>
    if violatesName info.filename then
      .error (.valueError ("Zip-slip detected: " ++ info.filename))
    else if ZIP_BOMB_LIMIT < info.file_size then
      .error (.valueError ("Zip-bomb suspected: " ++ info.filename))
    else validateZipPaths rest

/-- `MetadataScanner.scan_vsix` (metadata_scanner.py lines 124-177) up to
its exception routing: missing file raises `FileNotFoundError`; a
`BadZipFile` on open is caught and converted to a CRITICAL `BAD_ARCHIVE`
result with risk 1.0; `_validate_zip_paths` runs first inside the `try`
and its `ValueError` is NOT caught (the `except` clause only handles
`BadZipFile`), so it propagates to the caller; otherwise the
manifest-parsing remainder produces the result. -/
def MetadataScanner.scan_vsix (a : Archive) : Except PyErr MetadataScanResult :=
  if a.exists_on_disk = false then .error (.fileNotFound "VSIX not found")
  else if a.is_valid_zip = false then
    .ok { extension_id := "unknown", version := "unknown"
          findings := [{ severity := "CRITICAL", check_name := "BAD_ARCHIVE",
                         description := "VSIX is not a valid ZIP archive" }]
          risk_score := 1 }
  else
    match validateZipPaths a.entries with
    | .error e => .error e
    | .ok _ => .ok a.metaScanRest

/-- The metadata stage outcome as the pipeline's `try`/`except` observes it
(pipeline.py lines 115-126): the scanner's result, or the raised
exception's message. -/
def metaStageOutcome (a : Archive) : Except String MetadataScanResult :=
  (MetadataScanner.scan_vsix a).mapError PyErr.message

lemma validate_error_of_violation (l : List ZipInfo) (info : ZipInfo)
    (hmem : info ∈ l)
    (hviol : violatesName info.filename = true ∨ ZIP_BOMB_LIMIT < info.file_size) :
    ∃ msg, validateZipPaths l = .error (.valueError msg) := by
  induction l with
  | nil => cases hmem
  | cons hd tl ih =>
    by_cases h1 : violatesName hd.filename = true
    · refine ⟨"Zip-slip detected: " ++ hd.filename, ?_⟩
      simp [validateZipPaths, h1]
    · by_cases h2 : ZIP_BOMB_LIMIT < hd.file_size
      · refine ⟨"Zip-bomb suspected: " ++ hd.filename, ?_⟩
        simp [validateZipPaths, h1, h2]
      · rcases List.mem_cons.mp hmem with rfl | hmem'
        · rcases hviol with hv | hv
          · exact absurd hv h1
          · exact absurd hv h2
        · obtain ⟨msg, hm⟩ := ih hmem'
          exact ⟨msg, by simp [validateZipPaths, h1, h2, hm]⟩

lemma validate_zipslip_of_dotdot (l : List ZipInfo) (info : ZipInfo)
    (hmem : info ∈ l)
    (hdd : ['.', '.'] <:+: info.filename.data)
    (hsize : ∀ i ∈ l, i.file_size ≤ ZIP_BOMB_LIMIT) :
    ∃ name, validateZipPaths l = .error (.valueError ("Zip-slip detected: " ++ name)) := by
  induction l with
  | nil => cases hmem
  | cons hd tl ih =>
    by_cases h1 : violatesName hd.filename = true
    · exact ⟨hd.filename, by simp [validateZipPaths, h1]⟩
    · have h2 : ¬ ZIP_BOMB_LIMIT < hd.file_size := not_lt.mpr (hsize hd (by simp))
      rcases List.mem_cons.mp hmem with rfl | hmem'
      · exact absurd (by simp [violatesName, hdd]) h1
      · obtain ⟨name, hm⟩ := ih hmem' (fun i hi => hsize i (List.mem_cons_of_mem _ hi))
        exact ⟨name, by simp [validateZipPaths, h1, h2, hm]⟩

/-- C10: any archive with an entry whose name contains the substring
`".."` anywhere — even a single benign filename such as
`lib/jquery..min.js` — fails `_validate_zip_paths` with a `ValueError`
(the zip-slip message, provided no earlier entry trips the 500 MiB
zip-bomb cap first), and `scan_vsix` does not catch it, so the metadata
stage fails for the archive. -/
theorem C10_dotdot_filename_fails_metadata (a : Archive) (info : ZipInfo)
    (hmem : info ∈ a.entries)
    (hdd : ['.', '.'] <:+: info.filename.data)
    (hex : a.exists_on_disk = true) (hzip : a.is_valid_zip = true) :
    (∃ msg, validateZipPaths a.entries = .error (.valueError msg))
    ∧ (∀ m, MetadataScanner.scan_vsix a ≠ .ok m)
    ∧ ((∀ i ∈ a.entries, i.file_size ≤ ZIP_BOMB_LIMIT) →
        ∃ name, validateZipPaths a.entries
          = .error (.valueError ("Zip-slip detected: " ++ name))) := by
  have hviol : violatesName info.filename = true ∨ ZIP_BOMB_LIMIT < info.file_size :=
    Or.inl (by simp [violatesName, hdd])
  obtain ⟨msg, hval⟩ := validate_error_of_violation a.entries info hmem hviol
  refine ⟨⟨msg, hval⟩, ?_, fun hsize => validate_zipslip_of_dotdot a.entries info hmem hdd hsize⟩
  intro m hsc
  rw [MetadataScanner.scan_vsix] at hsc
  simp [hex, hzip, hval] at hsc

/-- The single-entry archive of C10's claim: one benign filename whose
basename happens to contain consecutive dots. -/
def jqueryArchive : Archive :=
  { entries := [{ filename := "lib/jquery..min.js", file_size := 120 }] }

/-- Witness for C10 at the concrete archive `lib/jquery..min.js`. -/
theorem C10_dotdot_filename_witness :
    (∃ msg, validateZipPaths jqueryArchive.entries = .error (.valueError msg))
    ∧ (∀ m, MetadataScanner.scan_vsix jqueryArchive ≠ .ok m)
    ∧ ((∀ i ∈ jqueryArchive.entries, i.file_size ≤ ZIP_BOMB_LIMIT) →
        ∃ name, validateZipPaths jqueryArchive.entries
          = .error (.valueError ("Zip-slip detected: " ++ name))) :=
  C10_dotdot_filename_fails_metadata jqueryArchive
    { filename := "lib/jquery..min.js", file_size := 120 }
    (by simp [jqueryArchive]) (by decide) rfl rfl


/-- An archive whose single entry is a genuine zip-slip path. -/
def zipSlipArchive : Archive := { entries := [{ filename := "../evil.sh" }] }

/-- Stage outcomes of a pipeline run on `zipSlipArchive`: the metadata
stage fails with the propagated `ValueError`, while the other stages (which
open the archive themselves and enforce no such check) return results. -/
def zipSlipStages : StageOutcomes :=
  { metadataO := metaStageOutcome zipSlipArchive
    forensicO := .ok { files_scanned := 1, risk_score := 3/10 }
    yaraO := .ok { risk_score := 2/10 }
    aiO := .ok { risk_score? := some (1/10), verdict? := some "CLEAN" } }

/-- C4 is false as stated: on a structural safety violation the metadata
scanner raises (no CRITICAL finding is recorded — the run has zero critical
findings) and the subsequent stages are not skipped: their risks and
results all enter the final `TriageResult`. -/
theorem C4_stages_not_skipped_counterexample :
    (∃ msg, MetadataScanner.scan_vsix zipSlipArchive = .error (.valueError msg))
    ∧ (TriagePipeline.run defaultWeights false "pkg.vsix" zipSlipStages).critical_findings = 0
    ∧ (TriagePipeline.run defaultWeights false "pkg.vsix" zipSlipStages).metadata_risk = 1/2
    ∧ (TriagePipeline.run defaultWeights false "pkg.vsix" zipSlipStages).forensic_risk = 3/10
    ∧ (TriagePipeline.run defaultWeights false "pkg.vsix" zipSlipStages).yara_risk = 2/10
    ∧ (TriagePipeline.run defaultWeights false "pkg.vsix" zipSlipStages).ai_risk = 1/10
    ∧ (TriagePipeline.run defaultWeights false "pkg.vsix" zipSlipStages).forensic_result
        = some { files_scanned := 1, risk_score := 3/10 } := by
  have hscan : MetadataScanner.scan_vsix zipSlipArchive
      = .error (.valueError "Zip-slip detected: ../evil.sh") := rfl
  refine ⟨⟨"Zip-slip detected: ../evil.sh", hscan⟩, ?_, ?_, ?_, ?_, ?_, ?_⟩
  · rw [run_critical_findings]; rfl
  · rw [run_metadata_risk]
    show metaRiskOf zipSlipStages.metadataO = 1/2
    have h : zipSlipStages.metadataO
        = Except.error "Zip-slip detected: ../evil.sh" := rfl
    rw [h, metaRiskOf]
  · rw [run_forensic_risk]; rfl
  · rw [run_yara_risk]; rfl
  · rw [run_ai_risk]; rfl
  · rw [run_forensic_result]; rfl

/-- C4 (amended): a structural safety violation (zip-slip path or a
declared entry size over 500 MiB) raises a `ValueError` inside the
metadata stage; the pipeline catches it like any stage failure, records
the 0.5 fallback metadata risk with no result (hence no CRITICAL finding
from that stage), and the remaining stages still run — their outcomes
still determine the corresponding fields of the `TriageResult`. -/
theorem C4_violation_amended (a : Archive) (info : ZipInfo) (hmem : info ∈ a.entries)
    (hviol : violatesName info.filename = true ∨ ZIP_BOMB_LIMIT < info.file_size)
    (hex : a.exists_on_disk = true) (hzip : a.is_valid_zip = true)
    (fo : Except String ForensicScanResult) (yo : Except String YaraScanResult)
    (ao : Except String AIDict) (w : Weights) (p : String) :
    (∃ msg, MetadataScanner.scan_vsix a = .error (.valueError msg))
    ∧ ((TriagePipeline.run w false p
          { metadataO := metaStageOutcome a, forensicO := fo, yaraO := yo, aiO := ao }).metadata_risk
        = 1/2)
    ∧ ((TriagePipeline.run w false p
          { metadataO := metaStageOutcome a, forensicO := fo, yaraO := yo, aiO := ao }).metadata_result
        = none)
    ∧ ((TriagePipeline.run w false p
          { metadataO := metaStageOutcome a, forensicO := fo, yaraO := yo, aiO := ao }).forensic_risk
        = forensicRiskOf fo)
    ∧ ((TriagePipeline.run w false p
          { metadataO := metaStageOutcome a, forensicO := fo, yaraO := yo, aiO := ao }).yara_risk
        = yaraRiskOf yo)
    ∧ ((TriagePipeline.run w false p
          { metadataO := metaStageOutcome a, forensicO := fo, yaraO := yo, aiO := ao }).ai_risk
        = aiRiskOf false ao) := by
  obtain ⟨msg, hval⟩ := validate_error_of_violation a.entries info hmem hviol
  have hscan : MetadataScanner.scan_vsix a = .error (.valueError msg) := by
    rw [MetadataScanner.scan_vsix]
    simp [hex, hzip, hval]
  have hmeta : metaStageOutcome a = .error (PyErr.valueError msg).message := by
    rw [metaStageOutcome, hscan]; rfl
  refine ⟨⟨msg, hscan⟩, ?_, ?_, run_forensic_risk _ _ _ _, run_yara_risk _ _ _ _,
    run_ai_risk _ _ _ _⟩
  · rw [run_metadata_risk]
    show metaRiskOf (metaStageOutcome a) = 1/2
    rw [hmeta]; rfl
  · rw [run_metadata_result]
    show (match metaStageOutcome a with | .ok m => some m | .error _ => none) = none
    rw [hmeta]


/-- Witness for the amended C4 at the concrete zip-slip archive and stage
outcomes. -/
theorem C4_violation_witness :
    (∃ msg, MetadataScanner.scan_vsix zipSlipArchive = .error (.valueError msg))
    ∧ ((TriagePipeline.run defaultWeights false "pkg.vsix"
          { metadataO := metaStageOutcome zipSlipArchive
            forensicO := .ok { files_scanned := 1, risk_score := 3/10 }
            yaraO := .ok { risk_score := 2/10 }
            aiO := .ok { risk_score? := some (1/10), verdict? := some "CLEAN" } }).metadata_risk
        = 1/2)
    ∧ ((TriagePipeline.run defaultWeights false "pkg.vsix"
          { metadataO := metaStageOutcome zipSlipArchive
            forensicO := .ok { files_scanned := 1, risk_score := 3/10 }
            yaraO := .ok { risk_score := 2/10 }
            aiO := .ok { risk_score? := some (1/10), verdict? := some "CLEAN" } }).metadata_result
        = none)
    ∧ ((TriagePipeline.run defaultWeights false "pkg.vsix"
          { metadataO := metaStageOutcome zipSlipArchive
            forensicO := .ok { files_scanned := 1, risk_score := 3/10 }
            yaraO := .ok { risk_score := 2/10 }
            aiO := .ok { risk_score? := some (1/10), verdict? := some "CLEAN" } }).forensic_risk
        = forensicRiskOf (.ok { files_scanned := 1, risk_score := 3/10 }))
    ∧ ((TriagePipeline.run defaultWeights false "pkg.vsix"
          { metadataO := metaStageOutcome zipSlipArchive
            forensicO := .ok { files_scanned := 1, risk_score := 3/10 }
            yaraO := .ok { risk_score := 2/10 }
            aiO := .ok { risk_score? := some (1/10), verdict? := some "CLEAN" } }).yara_risk
        = yaraRiskOf (.ok { risk_score := 2/10 }))
    ∧ ((TriagePipeline.run defaultWeights false "pkg.vsix"
          { metadataO := metaStageOutcome zipSlipArchive
            forensicO := .ok { files_scanned := 1, risk_score := 3/10 }
            yaraO := .ok { risk_score := 2/10 }
            aiO := .ok { risk_score? := some (1/10), verdict? := some "CLEAN" } }).ai_risk
        = aiRiskOf false (.ok { risk_score? := some (1/10), verdict? := some "CLEAN" })) :=
  C4_violation_amended zipSlipArchive { filename := "../evil.sh" }
    (by simp [zipSlipArchive]) (Or.inl (by decide)) rfl rfl
    (.ok { files_scanned := 1, risk_score := 3/10 }) (.ok { risk_score := 2/10 })
    (.ok { risk_score? := some (1/10), verdict? := some "CLEAN" }) defaultWeights "pkg.vsix"


/-- `AIVibeChecker.CHARS_PER_TOKEN` (ai_vibe_check.py line 53). -/
def CHARS_PER_TOKEN : ℕ := 2

/-- Python `source.split("\\n")` on character lists: always returns at
least one (possibly empty) line; a trailing newline yields a trailing
empty line, consecutive newlines yield empty lines between them. -/
def splitLines : List Char → List (List Char)
  | [] => [[]]
  | c :: cs =>
    if c = '\n' then [] :: splitLines cs
    else
      match splitLines cs with
      | [] => [[c]]
      | l :: ls => (c :: l) :: ls

/-- Python `"\\n".join` on character lists: the inverse of `splitLines`. -/
def joinLines : List (List Char) → List Char
  | [] => []
  | l :: ls => l ++ (if ls = [] then [] else '\n' :: joinLines ls)

/-- Step-indexed body of the hard-slicing loop
`for i in range(0, len(line), max_chars)` of `_chunk_source`
(ai_vibe_check.py lines 100-102): emits `line[i:i+max_chars]` blocks.
The fuel argument only bounds the number of iterations: it is consumed
once per emitted block, and `slicesOf` passes `line.length`, which is
enough for every step `m ≥ 1` (Python raises `ValueError` for step 0;
that case is outside every theorem here). -/
def slicesGo : ℕ → ℕ → List Char → List (List Char)
  | _, _, [] => []
  | 0, _, c :: cs => [c :: cs]
  | fuel + 1, m, c :: cs => (c :: cs).take m :: slicesGo fuel m ((c :: cs).drop m)

/-- The hard-slicing loop of `_chunk_source`: `line` cut into consecutive
blocks of `max_chars` characters. -/
def slicesOf (m : ℕ) (l : List Char) : List (List Char) :=
  slicesGo l.length m l

/-- The line-accumulation loop of `_chunk_source` (ai_vibe_check.py lines
89-116). `cur` is `current_chunk`; `m` is `max_chars`. For each line:
an oversized line (`line_size > max_chars`) flushes `cur` and is
hard-sliced; otherwise the line either overflows the current chunk
(flush, then start a new chunk from the line) or is accumulated with a
joining newline. The final non-empty chunk is flushed after the loop. -/
def chunkGo (m : ℕ) (cur : List Char) : List (List Char) → List (List Char)
  | [] => if cur = [] then [] else [cur]
  | line :: rest =>
    if m < line.length + 1 then
      (if cur = [] then [] else [cur]) ++ slicesOf m line ++ chunkGo m [] rest
    else if m < cur.length + (line.length + 1) ∧ cur ≠ [] then
      cur :: chunkGo m line rest
    else
      chunkGo m (if cur = [] then line else cur ++ '\n' :: line) rest

/-- `AIVibeChecker._chunk_source` (ai_vibe_check.py lines 72-118):
`max_chars = max_chunk_tokens * CHARS_PER_TOKEN`; a source that fits in
one chunk is returned whole, otherwise it is split into lines and fed to
the accumulation loop. -/
def chunkSource (source : List Char) (max_chunk_tokens : ℕ := 1500) : List (List Char) :=
  let max_chars := max_chunk_tokens * CHARS_PER_TOKEN
  if source.length ≤ max_chars then [source]
  else chunkGo max_chars [] (splitLines source)

/-- `cs` reassembles to `s` by interleaving (possibly empty) runs of
newline characters before, between and after the chunks — i.e. every
character of `s` outside the chunks is a newline dropped by the chunker. -/
inductive NlJoin : List (List Char) → List Char → Prop
  | nil : NlJoin [] []
  | nl {cs s} (h : NlJoin cs s) : NlJoin cs ('\n' :: s)
  | chunk (c : List Char) {cs s} (h : NlJoin cs s) : NlJoin (c :: cs) (c ++ s)

/-- All reassemblies of `cs` obtained by either dropping or re-inserting a
single newline at each chunk boundary — the reading of C6's
"concatenation, re-inserting the newlines dropped at chunk boundaries". -/
def boundaryJoins : List (List Char) → List (List Char)
  | [] => [[]]
  | [c] => [c]
  | c :: cs => (boundaryJoins cs).flatMap (fun r => [c ++ r, c ++ '\n' :: r])


lemma splitLines_ne_nil (s : List Char) : splitLines s ≠ [] := by
  cases s with
  | nil => simp [splitLines]
  | cons c cs =>
    rw [splitLines]
    by_cases h : c = '\n'
    · simp [h]
    · rw [if_neg h]
      cases splitLines cs <;> simp

lemma joinLines_splitLines (s : List Char) : joinLines (splitLines s) = s := by
  induction s with
  | nil => simp [splitLines, joinLines]
  | cons c cs ih =>
    rw [splitLines]
    by_cases h : c = '\n'
    · rw [if_pos h, joinLines, if_neg (splitLines_ne_nil cs), ih, h]
      simp
    · rw [if_neg h]
      rcases hsp : splitLines cs with _ | ⟨l, ls⟩
      · exact absurd hsp (splitLines_ne_nil cs)
      · rw [hsp] at ih
        cases ls with
        | nil => simp [joinLines] at ih ⊢; exact ih
        | cons l2 ls2 => simp [joinLines] at ih ⊢; exact ih

lemma splitLines_sum_le (s : List Char) :
    ((splitLines s).map List.length).sum ≤ s.length := by
  induction s with
  | nil => simp [splitLines]
  | cons c cs ih =>
    rw [splitLines]
    by_cases h : c = '\n'
    · rw [if_pos h]
      simpa using Nat.le_succ_of_le ih
    · rw [if_neg h]
      rcases hsp : splitLines cs with _ | ⟨l, ls⟩
      · exact absurd hsp (splitLines_ne_nil cs)
      · rw [hsp] at ih
        simp only [List.map_cons, List.sum_cons, List.length_cons] at ih ⊢
        omega

lemma slicesGo_join (m : ℕ) (hm : m ≠ 0) :
    ∀ (fuel : ℕ) (l : List Char), l.length ≤ fuel → (slicesGo fuel m l).flatten = l := by
  intro fuel
  induction fuel with
  | zero =>
    intro l hl
    have : l = [] := List.length_eq_zero.mp (Nat.le_zero.mp hl)
    subst this; rfl
  | succ f ih =>
    intro l hl
    cases l with
    | nil => rfl
    | cons c cs =>
      rw [slicesGo, List.flatten_cons, ih _ ?_, List.take_append_drop]
      rw [List.length_drop]
      simp only [List.length_cons] at hl ⊢
      omega

lemma slicesOf_join (m : ℕ) (hm : m ≠ 0) (l : List Char) : (slicesOf m l).flatten = l :=
  slicesGo_join m hm l.length l le_rfl

lemma slicesGo_mem_length (m : ℕ) (hm : m ≠ 0) :
    ∀ (fuel : ℕ) (l : List Char), l.length ≤ fuel →
      ∀ c ∈ slicesGo fuel m l, c.length ≤ m := by
  intro fuel
  induction fuel with
  | zero =>
    intro l hl c hc
    have : l = [] := List.length_eq_zero.mp (Nat.le_zero.mp hl)
    subst this; simp [slicesGo] at hc
  | succ f ih =>
    intro l hl c hc
    cases l with
    | nil => simp [slicesGo] at hc
    | cons a as =>
      rw [slicesGo] at hc
      rcases List.mem_cons.mp hc with rfl | hc'
      · simpa using List.length_take_le m (a :: as)
      · refine ih _ ?_ c hc'
        rw [List.length_drop]
        simp only [List.length_cons] at hl ⊢
        omega

lemma slicesOf_mem_length (m : ℕ) (hm : m ≠ 0) (l : List Char) :
    ∀ c ∈ slicesOf m l, c.length ≤ m :=
  slicesGo_mem_length m hm l.length l le_rfl

lemma slicesGo_count (m : ℕ) (hm : m ≠ 0) :
    ∀ (fuel : ℕ) (l : List Char), l.length ≤ fuel →
      (slicesGo fuel m l).length ≤ l.length / m + 1 := by
  intro fuel
  induction fuel with
  | zero =>
    intro l hl
    have : l = [] := List.length_eq_zero.mp (Nat.le_zero.mp hl)
    subst this; simp [slicesGo]
  | succ f ih =>
    intro l hl
    cases l with
    | nil => simp [slicesGo]
    | cons a as =>
      rw [slicesGo]
      by_cases hlen : m ≤ as.length + 1
      · have hd := ih ((a :: as).drop m) ?_
        · have hdiv : (as.length + 1) / m = (as.length + 1 - m) / m + 1 :=
            Nat.div_eq_sub_div (Nat.pos_of_ne_zero hm) (by simpa using hlen)
          rw [List.length_drop] at hd
          simp only [List.length_cons] at hd ⊢
          omega
        · rw [List.length_drop]
          simp only [List.length_cons] at hl ⊢
          omega
      · have hnil : (a :: as).drop m = [] :=
          List.drop_eq_nil_of_le (by simp only [List.length_cons]; omega)
        rw [hnil]
        simp [slicesGo]

lemma slicesOf_count (m : ℕ) (hm : m ≠ 0) (l : List Char) :
    (slicesOf m l).length ≤ l.length / m + 1 :=
  slicesGo_count m hm l.length l le_rfl


lemma NlJoin.append {cs1 cs2 : List (List Char)} {s1 s2 : List Char}
    (h1 : NlJoin cs1 s1) (h2 : NlJoin cs2 s2) : NlJoin (cs1 ++ cs2) (s1 ++ s2) := by
  induction h1 with
  | nil => simpa using h2
  | nl h ih => simpa using ih.nl
  | chunk c h ih =>
    rw [List.cons_append, List.append_assoc]
    exact ih.chunk c

lemma NlJoin.of_flatten (cs : List (List Char)) : NlJoin cs cs.flatten := by
  induction cs with
  | nil => exact .nil
  | cons c rest ih => exact ih.chunk c

lemma NlJoin.slices (m : ℕ) (hm : m ≠ 0) (l : List Char) : NlJoin (slicesOf m l) l := by
  have h := NlJoin.of_flatten (slicesOf m l)
  rwa [slicesOf_join m hm l] at h

lemma NlJoin.single (c : List Char) : NlJoin [c] c := by
  simpa using NlJoin.chunk c NlJoin.nil

lemma NlJoin.single_nl (c : List Char) : NlJoin [c] (c ++ ['\n']) :=
  NlJoin.chunk c (NlJoin.nl NlJoin.nil)

/-- The source text still to be covered by `chunkGo m cur lines`: the
current chunk, the joining newline dropped when `cur` was flushed or
extended, and the remaining lines. -/
def residual (cur : List Char) (lines : List (List Char)) : List Char :=
  if cur = [] then joinLines lines
  else cur ++ (if lines = [] then [] else '\n' :: joinLines lines)

lemma chunkGo_nljoin (m : ℕ) (hm : m ≠ 0) :
    ∀ (lines : List (List Char)) (cur : List Char),
      NlJoin (chunkGo m cur lines) (residual cur lines) := by
  intro lines
  induction lines with
  | nil =>
    intro cur
    by_cases h : cur = []
    · simpa [chunkGo, residual, h] using NlJoin.nil
    · simpa [chunkGo, residual, h] using NlJoin.single cur
  | cons line rest ih =>
    intro cur
    rw [chunkGo]
    by_cases hov : m < line.length + 1
    · -- oversized line: flush, hard-slice, continue with empty chunk
      rw [if_pos hov]
      have hrest : NlJoin (chunkGo m [] rest)
          (if rest = [] then [] else '\n' :: joinLines rest) := by
        by_cases hr : rest = []
        · subst hr; simpa [chunkGo] using NlJoin.nil
        · rw [if_neg hr]
          have h0 := ih []
          rw [residual, if_pos rfl] at h0
          exact h0.nl
      have hs : NlJoin (slicesOf m line ++ chunkGo m [] rest)
          (line ++ if rest = [] then [] else '\n' :: joinLines rest) :=
        (NlJoin.slices m hm line).append hrest
      by_cases hc : cur = []
      · subst hc
        simpa [residual, joinLines] using hs
      · rw [if_neg hc]
        have := (NlJoin.single_nl cur).append hs
        rw [residual, if_neg hc, if_neg (by simp)]
        simpa [joinLines] using this
    · rw [if_neg hov]
      by_cases hfl : m < cur.length + (line.length + 1) ∧ cur ≠ []
      · -- flush the current chunk, restart from this line
        rw [if_pos hfl]
        have hrec := ih line
        rw [residual, if_neg hfl.2, if_neg (by simp)]
        by_cases hl : line = []
        · subst hl
          rw [residual, if_pos rfl] at hrec
          by_cases hr : rest = []
          · subst hr
            simp only [chunkGo] at hrec ⊢
            simpa [joinLines] using NlJoin.single_nl cur
          · have : NlJoin (chunkGo m [] rest) ('\n' :: joinLines rest) := hrec.nl
            have h2 := (NlJoin.single_nl cur).append this
            simpa [joinLines, hr] using h2
        · rw [residual, if_neg hl] at hrec
          have h2 := (NlJoin.single_nl cur).append hrec
          simpa [joinLines] using h2
      · -- accumulate this line into the current chunk
        rw [if_neg hfl]
        by_cases hc : cur = []
        · subst hc
          simp only [if_pos rfl]
          have hrec := ih line
          rw [residual, if_pos rfl]
          by_cases hl : line = []
          · subst hl
            rw [residual, if_pos rfl] at hrec
            by_cases hr : rest = []
            · subst hr
              simpa [joinLines] using hrec
            · simpa [joinLines, hr] using hrec.nl
          · rw [residual, if_neg hl] at hrec
            simpa [joinLines] using hrec
        · rw [if_neg hc]
          have hne : cur ++ '\n' :: line ≠ [] := by simp
          have hrec := ih (cur ++ '\n' :: line)
          rw [residual, if_neg hne] at hrec
          rw [residual, if_neg hc, if_neg (by simp)]
          by_cases hr : rest = []
          · subst hr
            simpa [joinLines] using hrec
          · simpa [joinLines, hr, List.append_assoc] using hrec


lemma chunkGo_mem_length (m : ℕ) (hm : m ≠ 0) :
    ∀ (lines : List (List Char)) (cur : List Char), cur.length ≤ m →
      ∀ c ∈ chunkGo m cur lines, c.length ≤ m := by
  intro lines
  induction lines with
  | nil =>
    intro cur hcur c hc
    by_cases h : cur = []
    · simp [chunkGo, h] at hc
    · simp [chunkGo, h] at hc
      subst hc; exact hcur
  | cons line rest ih =>
    intro cur hcur c hc
    rw [chunkGo] at hc
    by_cases hov : m < line.length + 1
    · rw [if_pos hov] at hc
      rcases List.mem_append.mp hc with h1 | h2
      · rcases List.mem_append.mp h1 with ha | hb
        · by_cases h : cur = []
          · simp [h] at ha
          · simp [h] at ha; subst ha; exact hcur
        · exact slicesOf_mem_length m hm line c hb
      · exact ih [] (Nat.zero_le m) c h2
    · rw [if_neg hov] at hc
      have hline : line.length ≤ m := by omega
      by_cases hfl : m < cur.length + (line.length + 1) ∧ cur ≠ []
      · rw [if_pos hfl] at hc
        rcases List.mem_cons.mp hc with rfl | hc'
        · exact hcur
        · exact ih line hline c hc'
      · rw [if_neg hfl] at hc
        refine ih _ ?_ c hc
        by_cases h : cur = []
        · simpa [h] using hline
        · have hno : ¬ m < cur.length + (line.length + 1) := fun hlt => hfl ⟨hlt, h⟩
          simp only [h, if_neg]
          simp [List.length_append]
          omega
  
/-- The number of chunks a single line contributes in the accumulation
loop: its slice count when oversized, otherwise (at most) one. -/
def lineCost (m : ℕ) (line : List Char) : ℕ :=
  if m < line.length + 1 then (slicesOf m line).length else 1

lemma chunkGo_count (m : ℕ) (hm : m ≠ 0) :
    ∀ (lines : List (List Char)) (cur : List Char),
      (chunkGo m cur lines).length ≤
        (if cur = [] then 0 else 1) + (lines.map (lineCost m)).sum := by
  intro lines
  induction lines with
  | nil =>
    intro cur
    by_cases h : cur = [] <;> simp [chunkGo, h]
  | cons line rest ih =>
    intro cur
    rw [chunkGo]
    by_cases hov : m < line.length + 1
    · rw [if_pos hov]
      have hrec := ih []
      rw [if_pos rfl] at hrec
      have hcost : lineCost m line = (slicesOf m line).length := if_pos hov
      simp only [List.length_append, List.map_cons, List.sum_cons, hcost]
      by_cases h : cur = [] <;> simp [h] <;> omega
    · rw [if_neg hov]
      have hcost : lineCost m line = 1 := if_neg hov
      by_cases hfl : m < cur.length + (line.length + 1) ∧ cur ≠ []
      · rw [if_pos hfl]
        have hrec := ih line
        simp only [List.length_cons, List.map_cons, List.sum_cons, hcost, if_neg hfl.2]
        by_cases hl : line = []
        · subst hl
          simp at hrec
          omega
        · rw [if_neg hl] at hrec
          omega
      · rw [if_neg hfl]
        simp only [List.map_cons, List.sum_cons, hcost]
        by_cases h : cur = []
        · subst h
          rw [if_pos rfl, if_pos rfl]
          have hrec := ih line
          by_cases hl : line = []
          · subst hl
            simp at hrec
            omega
          · rw [if_neg hl] at hrec
            omega
        · rw [if_neg h, if_neg h]
          have hrec := ih (cur ++ '\n' :: line)
          have hne : cur ++ '\n' :: line ≠ [] := by simp
          rw [if_neg hne] at hrec
          omega

lemma div_add_div_le_add_div (a b m : ℕ) : a / m + b / m ≤ (a + b) / m := by
  rcases Nat.eq_zero_or_pos m with hm | hm
  · simp [hm]
  · rw [Nat.le_div_iff_mul_le hm, Nat.add_mul]
    have ha := Nat.div_mul_le_self a m
    have hb := Nat.div_mul_le_self b m
    omega

lemma sum_lineCost_le (m : ℕ) (hm : m ≠ 0) (lines : List (List Char)) :
    (lines.map (lineCost m)).sum ≤ lines.length + (lines.map List.length).sum / m := by
  induction lines with
  | nil => simp
  | cons l ls ih =>
    have hcost : lineCost m l ≤ l.length / m + 1 := by
      rw [lineCost]
      by_cases hov : m < l.length + 1
      · rw [if_pos hov]; exact slicesOf_count m hm l
      · rw [if_neg hov]; exact Nat.le_add_left 1 _
    have hdiv := div_add_div_le_add_div l.length ((ls.map List.length).sum) m
    simp only [List.map_cons, List.sum_cons, List.length_cons]
    generalize hz : (l.length + (List.map List.length ls).sum) / m = z at hdiv ⊢
    generalize hx : l.length / m = x at hcost hdiv
    generalize hy : (List.map List.length ls).sum / m = y at hdiv ih
    omega

/-- C6 (amended): for every source `S` and chunk-token budget `t ≥ 1`
(`B = 2t` characters, default `t = 1500`, `B = 3000`): the chunks
reassemble to `S` by re-inserting runs of newlines around chunk
boundaries (every dropped character is a newline — a boundary inside a
hard-sliced line drops nothing while an empty line can drop two
newlines at one boundary, and a trailing newline is dropped after the
last chunk); every chunk has length at most `B`; and the number of
chunks is at most the number of newline-separated lines of `S` plus
`⌊N/B⌋`. -/
theorem C6_chunker_amended (s : List Char) (t : ℕ) (ht : 1 ≤ t) :
    NlJoin (chunkSource s t) s
    ∧ (∀ c ∈ chunkSource s t, c.length ≤ t * CHARS_PER_TOKEN)
    ∧ (chunkSource s t).length ≤
        (splitLines s).length + s.length / (t * CHARS_PER_TOKEN) := by
  have hm : t * CHARS_PER_TOKEN ≠ 0 := by simp [CHARS_PER_TOKEN]; omega
  rw [chunkSource]
  by_cases hfit : s.length ≤ t * CHARS_PER_TOKEN
  · rw [if_pos hfit]
    refine ⟨NlJoin.single s, ?_, ?_⟩
    · intro c hc
      rcases List.mem_singleton.mp hc with rfl
      exact hfit
    · have h1 : 1 ≤ (splitLines s).length :=
        List.length_pos.mpr (splitLines_ne_nil s)
      simpa using Nat.le_add_right_of_le h1
  · rw [if_neg hfit]
    refine ⟨?_, ?_, ?_⟩
    · have h := chunkGo_nljoin (t * CHARS_PER_TOKEN) hm (splitLines s) []
      rw [residual, if_pos rfl, joinLines_splitLines] at h
      exact h
    · exact chunkGo_mem_length (t * CHARS_PER_TOKEN) hm (splitLines s) []
        (Nat.zero_le _)
    · have h1 := chunkGo_count (t * CHARS_PER_TOKEN) hm (splitLines s) []
      rw [if_pos rfl] at h1
      have h2 := sum_lineCost_le (t * CHARS_PER_TOKEN) hm (splitLines s)
      have h3 : ((splitLines s).map List.length).sum / (t * CHARS_PER_TOKEN)
          ≤ s.length / (t * CHARS_PER_TOKEN) :=
        Nat.div_le_div_right (splitLines_sum_le s)
      generalize hu : s.length / (t * CHARS_PER_TOKEN) = u at h3 ⊢
      generalize hv : ((splitLines s).map List.length).sum / (t * CHARS_PER_TOKEN) = v at h2 h3
      omega


/-- The concrete source for the C6 counterexample:
`"a\\nXXXXX\\na\\nXXXXX\\n"` (16 characters), chunked with
`max_chunk_tokens = 2`, i.e. `B = 4` characters. -/
def c6Source : List Char := "a\nXXXXX\na\nXXXXX\n".data

/-- C6 is false as stated: on `c6Source` with `B = 4` the chunker emits 6
chunks — more than `⌈N/B⌉ + 1 = 5` — and no re-insertion of a single
newline per chunk boundary reassembles the source (slice boundaries inside
the oversized lines drop no newline, and the trailing newline is dropped
after the last chunk). -/
theorem C6_chunker_counterexample :
    chunkSource c6Source 2 =
      [['a'], ['X','X','X','X'], ['X'], ['a'], ['X','X','X','X'], ['X']]
    ∧ ¬ ((chunkSource c6Source 2).length ≤ (c6Source.length + 4 - 1) / 4 + 1)
    ∧ c6Source ∉ boundaryJoins (chunkSource c6Source 2) := by
  refine ⟨by decide, by decide, by decide⟩

/-- Witness for the amended C6 at the concrete source `"ab\\ncd"` with
`max_chunk_tokens = 1` (`B = 2`). -/
theorem C6_chunker_witness :
    NlJoin (chunkSource "ab\ncd".data 1) "ab\ncd".data
    ∧ (∀ c ∈ chunkSource "ab\ncd".data 1, c.length ≤ 1 * CHARS_PER_TOKEN)
    ∧ (chunkSource "ab\ncd".data 1).length ≤
        (splitLines "ab\ncd".data).length
          + "ab\ncd".data.length / (1 * CHARS_PER_TOKEN) :=
  C6_chunker_amended "ab\ncd".data 1 le_rfl


/-- Python `str.endswith` via character lists. -/
def strEndsWith (s suffix : String) : Bool := decide (suffix.data <:+ s.data)

/-- The parsed `package.json` dict restricted to the keys
`AIVibeChecker.analyze_vsix` reads (`pkg_data.get("main", "")`,
`pkg_data.get("browser", "")`). -/
structure Manifest where
  main : String := ""
  browser : String := ""
  deriving Repr, DecidableEq

/-- A VSIX archive as `analyze_vsix` sees it: `zf.namelist()` (the
`available_files` set) and, per candidate path, the parsed manifest —
`none` models a missing entry (`KeyError`), unparseable JSON
(`JSONDecodeError`), or a falsy (empty) parse. -/
structure AiArchive where
  namelist : List String := []
  readJson : String → Option Manifest := fun _ => none

/-- `AIVibeChecker._fallback_response` (ai_vibe_check.py lines 246-256),
restricted to the modelled keys: `risk_score` 0.5, verdict UNKNOWN. -/
def fallbackResponse (reason : String) : AIDict :=
  { risk_score? := some (1/2), verdict? := some "UNKNOWN", error? := some reason }

/-- One step of target accumulation: append the file if it exists in the
archive and was not already selected (`seen_targets` dedup). -/
def addTarget (names : List String) (ts : List String) (f : String) : List String :=
  if f ∈ names ∧ f ∉ ts then ts ++ [f] else ts

/-- One step of the YARA smart-targeting loop (ai_vibe_check.py lines
335-342): only truthy `.js` file paths are considered. -/
def yaraStep (names : List String) (ts : List String) (fd : RuleFinding) : List String :=
  if fd.file_path ≠ "" ∧ strEndsWith fd.file_path ".js" = true
  then addTarget names ts fd.file_path else ts

/-- The targets selected from YARA findings. -/
def yaraTargets (names : List String) (findings : List RuleFinding) : List String :=
  findings.foldl (yaraStep names) []

/-- `start_file[2:] if start_file.startswith("./") else start_file`. -/
def cleanEntry (s : String) : String :=
  match s.data with
  | '.' :: '/' :: rest => String.mk rest
  | _ => s

/-- The six path variations tried for an entry point
(ai_vibe_check.py lines 368-375). -/
def pathVariations (start_file : String) : List String :=
  let clean := cleanEntry start_file
  ["extension/" ++ clean, clean,
   "extension/" ++ clean ++ ".js", clean ++ ".js",
   "extension/" ++ clean ++ "/index.js", clean ++ "/index.js"]

/-- `entry_files`: the variations of the manifest `main` and `browser`
entries (empty entries are falsy and skipped). -/
def entryFiles (pkg : Manifest) : List String :=
  ((if pkg.main ≠ "" then [pkg.main] else [])
    ++ (if pkg.browser ≠ "" then [pkg.browser] else [])).flatMap pathVariations

/-- The manifest lookup of `analyze_vsix` (lines 346-352): try
`extension/package.json`, then `package.json`. -/
def readPackageJson (a : AiArchive) : Option Manifest :=
  match a.readJson "extension/package.json" with
  | some p => some p
  | none => a.readJson "package.json"

/-- The pure target-selection part of `AIVibeChecker.analyze_vsix`
(ai_vibe_check.py lines 329-384): YARA smart-targeting when a
`yara_result` is passed, otherwise manifest entry-point resolution; an
`error` is the reason string handed to `_fallback_response`. The network
analysis then consumes `targets[:2]`. -/
def selectTargets (a : AiArchive) (yara_result : Option YaraScanResult) :
    Except String (List String) :=
  let ytargets := match yara_result with
    | some y => yaraTargets a.namelist y.findings
    | none => []
  if ytargets ≠ [] then .ok ytargets
  else
    match readPackageJson a with
    | none => .error "No package.json found and no YARA hits targets"
    | some pkg =>
      let ts := (entryFiles pkg).foldl (addTarget a.namelist) []
      if ts = [] then .error "No valid Javascript entry points or YARA targets found"
      else .ok ts

/-- The AI stage call made by the pipeline (pipeline.py line 171):
`ai.analyze_vsix(vsix_path)` — the RuleEngine result is NOT passed, so
`yara_result` is `None` inside `analyze_vsix`. -/
def pipelineAiTargets (a : AiArchive) : Except String (List String) :=
  selectTargets a none

lemma addTarget_foldl_invariant (names : List String) :
    ∀ (l : List String) (ts : List String),
      ts.Nodup → (∀ f ∈ ts, f ∈ names) →
      (l.foldl (addTarget names) ts).Nodup
        ∧ ∀ f ∈ l.foldl (addTarget names) ts, f ∈ names := by
  intro l
  induction l with
  | nil => intro ts h1 h2; exact ⟨h1, h2⟩
  | cons x xs ih =>
    intro ts h1 h2
    rw [List.foldl_cons]
    rcases h : addTarget names ts x with _ | _
    all_goals rw [← h]
    all_goals rw [addTarget]
    all_goals by_cases hc : x ∈ names ∧ x ∉ ts
    · rw [if_pos hc]
      refine ih (ts ++ [x]) ?_ ?_
      · simpa [List.nodup_append] using ⟨h1, hc.2⟩
      · intro f hf
        rcases List.mem_append.mp hf with hf' | hf'
        · exact h2 f hf'
        · rcases List.mem_singleton.mp hf' with rfl
          exact hc.1
    · rw [if_neg hc]; exact ih ts h1 h2
    · rw [if_pos hc]
      refine ih (ts ++ [x]) ?_ ?_
      · simpa [List.nodup_append] using ⟨h1, hc.2⟩
      · intro f hf
        rcases List.mem_append.mp hf with hf' | hf'
        · exact h2 f hf'
        · rcases List.mem_singleton.mp hf' with rfl
          exact hc.1
    · rw [if_neg hc]; exact ih ts h1 h2

lemma yara_foldl_invariant (names : List String) :
    ∀ (l : List RuleFinding) (ts : List String),
      ts.Nodup → (∀ f ∈ ts, f ∈ names) →
      (l.foldl (yaraStep names) ts).Nodup
        ∧ ∀ f ∈ l.foldl (yaraStep names) ts, f ∈ names := by
  intro l
  induction l with
  | nil => intro ts h1 h2; exact ⟨h1, h2⟩
  | cons x xs ih =>
    intro ts h1 h2
    rw [List.foldl_cons, yaraStep]
    by_cases hjs : x.file_path ≠ "" ∧ strEndsWith x.file_path ".js" = true
    · rw [if_pos hjs, addTarget]
      by_cases hc : x.file_path ∈ names ∧ x.file_path ∉ ts
      · rw [if_pos hc]
        refine ih (ts ++ [x.file_path]) ?_ ?_
        · simpa [List.nodup_append] using ⟨h1, hc.2⟩
        · intro f hf
          rcases List.mem_append.mp hf with hf' | hf'
          · exact h2 f hf'
          · rcases List.mem_singleton.mp hf' with rfl
            exact hc.1
      · rw [if_neg hc]; exact ih ts h1 h2
    · rw [if_neg hjs]; exact ih ts h1 h2


/-- A concrete archive with a manifest entry point and a rule-hit source
file, used against C5. -/
def c5Archive : AiArchive :=
  { namelist := ["extension/package.json", "extension/out/main.js", "src/evil.js"]
    readJson := fun name =>
      if name = "extension/package.json" then some { main := "./out/main.js" } else none }

/-- A RuleEngine result with a finding in `src/evil.js`. -/
def c5Yara : YaraScanResult :=
  { findings := [{ severity := "CRITICAL", rule_name := "obfuscated_eval",
                   file_path := "src/evil.js" }]
    rules_matched := 1
    risk_score := 4/10 }

/-- C5 is false as stated: in a triage run the RuleEngine produced
findings (and `analyze_vsix` would prefer its rule-hit file if handed the
result), yet the pipeline invokes `analyze_vsix` without the RuleEngine
result (pipeline.py line 171), so the AI stage analyzes the manifest
entry point and never the rule-hit file. -/
theorem C5_yara_preference_counterexample :
    c5Yara.findings ≠ []
    ∧ selectTargets c5Archive (some c5Yara) = .ok ["src/evil.js"]
    ∧ pipelineAiTargets c5Archive = .ok ["extension/out/main.js"]
    ∧ "src/evil.js" ∉ ["extension/out/main.js"] := by
  refine ⟨by simp [c5Yara], rfl, rfl, by simp⟩

/-- C5 (amended): `analyze_vsix` prefers rule-hit `.js` files only when a
`yara_result` is passed in, but the pipeline calls it without one, so in
every triage run the AI stage resolves the manifest `main`/`browser`
entry points (with path variations); any selection yields a non-empty
duplicate-free target list whose first two entries (the at-most-two files
analyzed) exist in the archive, and a failed selection produces the
UNKNOWN fallback verdict. -/
theorem C5_ai_selection_amended (a : AiArchive) (y : Option YaraScanResult) :
    pipelineAiTargets a = selectTargets a none
    ∧ (∀ ts, selectTargets a y = .ok ts →
        ts ≠ [] ∧ ts.Nodup ∧ (ts.take 2).length ≤ 2 ∧ ∀ f ∈ ts.take 2, f ∈ a.namelist)
    ∧ (∀ e, selectTargets a y = .error e →
        (fallbackResponse e).verdict? = some "UNKNOWN"
        ∧ (fallbackResponse e).risk_score? = some (1/2)) := by
  refine ⟨rfl, ?_, fun e _ => ⟨rfl, rfl⟩⟩
  intro ts h
  rw [selectTargets.eq_def] at h
  have main : ∀ ts, ts ≠ [] → ts.Nodup → (∀ f ∈ ts, f ∈ a.namelist) →
      ts ≠ [] ∧ ts.Nodup ∧ (ts.take 2).length ≤ 2 ∧ ∀ f ∈ ts.take 2, f ∈ a.namelist := by
    intro ts hne hnd hmem
    exact ⟨hne, hnd, by simpa using List.length_take_le 2 ts,
      fun f hf => hmem f (List.take_subset 2 ts hf)⟩
  rcases y with _ | yr
  · simp only [ne_eq, not_true_eq_false, if_false] at h
    rcases hpkg : readPackageJson a with _ | pkg
    · rw [hpkg] at h; cases h
    · rw [hpkg] at h
      dsimp only at h
      by_cases hts : (entryFiles pkg).foldl (addTarget a.namelist) [] = []
      · rw [if_pos hts] at h; cases h
      · rw [if_neg hts] at h
        have hinv := addTarget_foldl_invariant a.namelist (entryFiles pkg) []
          List.nodup_nil (by simp)
        cases h
        exact main _ hts hinv.1 hinv.2
  · by_cases hy : yaraTargets a.namelist yr.findings ≠ []
    · rw [if_pos hy] at h
      have hinv := yara_foldl_invariant a.namelist yr.findings []
        List.nodup_nil (by simp)
      cases h
      exact main _ hy hinv.1 hinv.2
    · rw [if_neg hy] at h
      rcases hpkg : readPackageJson a with _ | pkg
      · rw [hpkg] at h; cases h
      · rw [hpkg] at h
        dsimp only at h
        by_cases hts : (entryFiles pkg).foldl (addTarget a.namelist) [] = []
        · rw [if_pos hts] at h; cases h
        · rw [if_neg hts] at h
          have hinv := addTarget_foldl_invariant a.namelist (entryFiles pkg) []
            List.nodup_nil (by simp)
          cases h
          exact main _ hts hinv.1 hinv.2

/-- Witness for the amended C5 at the concrete archive: the pipeline-side
selection equals the `yara_result = None` selection, and the selected
entry-point list satisfies the selection contract. -/
theorem C5_ai_selection_witness :
    pipelineAiTargets c5Archive = selectTargets c5Archive none
    ∧ (["extension/out/main.js"] ≠ []
        ∧ (["extension/out/main.js"] : List String).Nodup
        ∧ ((["extension/out/main.js"] : List String).take 2).length ≤ 2
        ∧ ∀ f ∈ (["extension/out/main.js"] : List String).take 2, f ∈ c5Archive.namelist) :=
  ⟨(C5_ai_selection_amended c5Archive none).1,
   (C5_ai_selection_amended c5Archive none).2.1 ["extension/out/main.js"] rfl⟩


/-- `MAGIC_SIGNATURES` as iterated by `identify_magic`: the Python dict
sorted by signature length, longest first (`sorted(..., key=-len)` is
stable, so ties keep dict insertion order). The four-byte
`\\xca\\xfe\\xba\\xbe` key appears twice in the dict literal — as
"Mach-O (Universal)" and "Java Class" — so the dict holds the later value
"Java Class" at the earlier insertion position. -/
def MAGIC_SIGNATURES : List (List ℕ × String) :=
  [([0x89, 0x50, 0x4E, 0x47, 0x0D, 0x0A, 0x1A, 0x0A], "PNG"),
   ([0x47, 0x49, 0x46, 0x38, 0x37, 0x61], "GIF"),
   ([0x47, 0x49, 0x46, 0x38, 0x39, 0x61], "GIF"),
   ([0x52, 0x61, 0x72, 0x21, 0x1A, 0x07], "RAR"),
   ([0x37, 0x7A, 0xBC, 0xAF, 0x27, 0x1C], "7Z"),
   ([0x52, 0x49, 0x46, 0x46], "WEBP/AVI/WAV"),
   ([0x7F, 0x45, 0x4C, 0x46], "ELF"),
   ([0xFE, 0xED, 0xFA, 0xCE], "Mach-O (32-bit)"),
   ([0xFE, 0xED, 0xFA, 0xCF], "Mach-O (64-bit)"),
   ([0xCA, 0xFE, 0xBA, 0xBE], "Java Class"),
   ([0x50, 0x4B, 0x03, 0x04], "ZIP/JAR"),
   ([0x25, 0x50, 0x44, 0x46], "PDF"),
   ([0xFF, 0xD8, 0xFF], "JPEG"),
   ([0x42, 0x4D], "BMP"),
   ([0x4D, 0x5A], "PE/EXE/DLL"),
   ([0x1F, 0x8B], "GZIP"),
   ([0x23, 0x21], "Shell Script")]

/-- `identify_magic` (forensic_check.py lines 93-99): first signature that
prefixes the data, longest signatures first. -/
def identify_magic (data : List ℕ) : String :=
  match MAGIC_SIGNATURES.find? (fun sig => data.take sig.1.length = sig.1) with
  | some sig => sig.2
  | none => "UNKNOWN"

/-- `EXPECTED_TYPES` (forensic_check.py lines 47-66); sets as lists. -/
def EXPECTED_TYPES : List (String × List String) :=
  [(".png", ["PNG"]), (".jpg", ["JPEG"]), (".jpeg", ["JPEG"]), (".gif", ["GIF"]),
   (".bmp", ["BMP"]), (".webp", ["WEBP/AVI/WAV"]), (".ico", ["PNG", "BMP"]),
   (".svg", []), (".txt", []), (".md", []), (".json", []), (".yaml", []),
   (".yml", []), (".xml", []), (".css", []), (".html", []), (".htm", []),
   (".pdf", ["PDF"])]

/-- `SUSPICIOUS_BINARY_TYPES` (forensic_check.py line 69). Note that
"Mach-O (Universal)" can never be detected: its dict key was overwritten
by "Java Class". -/
def SUSPICIOUS_BINARY_TYPES : List String :=
  ["PE/EXE/DLL", "ELF", "Mach-O (32-bit)", "Mach-O (64-bit)", "Mach-O (Universal)"]

/-- The text/source extensions skipped before any magic check
(forensic_check.py lines 134-136). `.d.ts` can never equal a value of
`_get_extension` (which keeps only the last dot segment) — kept verbatim. -/
def SKIP_EXTS : List String :=
  [".js", ".ts", ".mjs", ".cjs", ".map", ".json", ".md", ".txt", ".yml",
   ".yaml", ".xml", ".css", ".html", ".htm", ".svg", ".lock", ".d.ts"]

/-- Python `str.lower()` (ASCII case folding suffices for the compared
literals). -/
def strLower (s : String) : String := String.mk (s.data.map Char.toLower)

/-- `ForensicChecker._get_extension`: `filename.rsplit(".", 1)`, returning
`"." + last part` when a dot exists, else `""`. -/
def getExtension (filename : String) : String :=
  if '.' ∈ filename.data then
    String.mk ('.' :: (filename.data.reverse.takeWhile (fun c => c ≠ '.')).reverse)
  else ""

/-- The native-module whitelist test of Check 3 (forensic_check.py lines
186-189): any of the four segment strings occurring in the lowercased
name. -/
def inNativePath (name : String) : Bool :=
  ["node_modules", "bin/", "native/", "prebuilds/"].any
    (fun seg => decide (seg.data <:+: (strLower name).data))

/-- Generic single-character splitter (Python `str.split(sep)`). -/
def splitOnChar (sep : Char) : List Char → List (List Char)
  | [] => [[]]
  | c :: cs =>
    if c = sep then [] :: splitOnChar sep cs
    else
      match splitOnChar sep cs with
      | [] => [[c]]
      | l :: ls => (c :: l) :: ls

/-- The dangerous last-extension set of `_has_double_extension`. -/
def DOUBLE_EXT_SUSPICIOUS : List String :=
  ["exe", "dll", "so", "bat", "cmd", "ps1", "sh", "vbs", "js", "py", "rb", "pl"]

/-- The benign penultimate-extension set of `_has_double_extension`:
`set(EXPECTED_TYPES.keys()) | {"png","jpg","gif","txt","doc","pdf"}`.
The dotted keys can never match a dot-split part, but are kept verbatim. -/
def DOUBLE_EXT_BENIGN : List String :=
  [".png", ".jpg", ".jpeg", ".gif", ".bmp", ".webp", ".ico", ".svg", ".txt",
   ".md", ".json", ".yaml", ".yml", ".xml", ".css", ".html", ".htm", ".pdf",
   "png", "jpg", "gif", "txt", "doc", "pdf"]

/-- `ForensicChecker._has_double_extension` (forensic_check.py lines
237-251). -/
def hasDoubleExtension (filename : String) : Bool :=
  let basename := ((splitOnChar '/' filename.data).getLastD [])
  let parts := splitOnChar '.' basename
  match parts.reverse with
  | p1 :: p2 :: _ :: _ =>
    decide (strLower (String.mk p1) ∈ DOUBLE_EXT_SUSPICIOUS)
      && decide (strLower (String.mk p2) ∈ DOUBLE_EXT_BENIGN)
  | _ => false

/-- The severity weights of the forensic risk calculation
(forensic_check.py line 219): `weights.get(sev, 0.01)`. -/
def forensicSeverityWeight (sev : String) : ℚ :=
  if sev = "CRITICAL" then 4/10
  else if sev = "HIGH" then 15/100
  else if sev = "MEDIUM" then 5/100
  else 1/100

/-- The HIDDEN_EXECUTABLE finding built by Check 1 (description and
expected-types message strings are not modelled). -/
def hiddenExecFinding (name detected : String) : ForensicFinding :=
  { severity := "CRITICAL", check_name := "HIDDEN_EXECUTABLE",
    file_path := name, detected_type := detected }

/-- The per-entry body of the `for info in zf.infolist()` loop of
`ForensicChecker.scan_vsix` (forensic_check.py lines 126-208):
directory entries are skipped, text/source extensions only count as
scanned, short headers only count as scanned; otherwise Check 1
(HIDDEN_EXECUTABLE, CRITICAL) `elif` Check 2 (MAGIC_MISMATCH, HIGH), then
Check 3 (UNEXPECTED_BINARY, HIGH, gated on the native-path whitelist),
then Check 4 (DOUBLE_EXTENSION, MEDIUM). -/
def scanEntry (r : ForensicScanResult) (info : ZipInfo) : ForensicScanResult :=
  if info.is_dir then r
  else
    let name := info.filename
    let ext := strLower (getExtension name)
    if ext ∈ SKIP_EXTS then { r with files_scanned := r.files_scanned + 1 }
    else
      let header := info.data.take 32
      if header.length < 4 then { r with files_scanned := r.files_scanned + 1 }
      else
        let detected := identify_magic header
        let r1 := { r with files_scanned := r.files_scanned + 1 }
        let r2 :=
          if detected ∈ SUSPICIOUS_BINARY_TYPES
              ∧ ext ∉ [".exe", ".dll", ".so", ".dylib"] then
            { r1 with
              findings := r1.findings ++ [hiddenExecFinding name detected]
              hidden_executables := r1.hidden_executables ++ [name] }
          else if (∃ exp ∈ EXPECTED_TYPES, exp.1 = ext ∧ exp.2 ≠ []
                    ∧ detected ≠ "UNKNOWN" ∧ detected ∉ exp.2) then
            { r1 with
              findings := r1.findings ++
                [{ severity := "HIGH", check_name := "MAGIC_MISMATCH",
                   file_path := name, detected_type := detected }]
              magic_mismatches := r1.magic_mismatches ++ [name] }
          else r1
        let r3 :=
          if detected ∈ SUSPICIOUS_BINARY_TYPES ∧ inNativePath name = false then
            { r2 with
              findings := r2.findings ++
                [{ severity := "HIGH", check_name := "UNEXPECTED_BINARY",
                   file_path := name, detected_type := detected }] }
          else r2
        if hasDoubleExtension name = true then
          { r3 with
            findings := r3.findings ++
              [{ severity := "MEDIUM", check_name := "DOUBLE_EXTENSION",
                 file_path := name }] }
        else r3

/-- `ForensicChecker.scan_vsix` (forensic_check.py lines 112-229): the
entry loop (or a CRITICAL BAD_ARCHIVE finding when the ZIP refuses to
open), then the severity-weighted risk capped at 1.0. -/
def ForensicChecker.scan_vsix (a : Archive) : ForensicScanResult :=
  let r :=
    if a.is_valid_zip then a.entries.foldl scanEntry {}
    else { findings := [{ severity := "CRITICAL", check_name := "BAD_ARCHIVE",
                          file_path := "" }] }
  let risk := min ((r.findings.map (fun f => forensicSeverityWeight f.severity)).sum) 1
  { r with risk_score := risk }


lemma scanEntry_findings_mono (r : ForensicScanResult) (info : ZipInfo) :
    ∀ f ∈ r.findings, f ∈ (scanEntry r info).findings := by
  intro f hf
  simp only [scanEntry]
  split_ifs <;> simp [List.mem_append, hf]

lemma foldl_scan_mono (l : List ZipInfo) :
    ∀ (r : ForensicScanResult), ∀ f ∈ r.findings, f ∈ (l.foldl scanEntry r).findings := by
  induction l with
  | nil => intro r f hf; exact hf
  | cons hd tl ih =>
    intro r f hf
    rw [List.foldl_cons]
    exact ih (scanEntry r hd) f (scanEntry_findings_mono r hd f hf)

lemma foldl_scan_mem (l : List ZipInfo) (info : ZipInfo) (hmem : info ∈ l)
    (x : ForensicFinding) (hx : ∀ r', x ∈ (scanEntry r' info).findings) :
    ∀ (r : ForensicScanResult), x ∈ (l.foldl scanEntry r).findings := by
  induction l with
  | nil => cases hmem
  | cons hd tl ih =>
    intro r
    rw [List.foldl_cons]
    rcases List.mem_cons.mp hmem with rfl | hmem'
    · exact foldl_scan_mono tl (scanEntry r info) x (hx r)
    · exact ih hmem' (scanEntry r hd)

lemma scanEntry_hidden (r : ForensicScanResult) (info : ZipInfo)
    (hdir : info.is_dir = false)
    (hskip : strLower (getExtension info.filename) ∉ SKIP_EXTS)
    (hlen : ¬ (info.data.take 32).length < 4)
    (hmag : identify_magic (info.data.take 32) ∈ SUSPICIOUS_BINARY_TYPES)
    (hexe : strLower (getExtension info.filename) ∉ [".exe", ".dll", ".so", ".dylib"]) :
    hiddenExecFinding info.filename (identify_magic (info.data.take 32))
      ∈ (scanEntry r info).findings := by
  simp only [scanEntry, hdir, Bool.false_eq_true, if_false]
  rw [if_neg hskip, if_neg hlen]
  split_ifs <;> simp_all [List.mem_append]

lemma scanEntry_no_unexpected (r : ForensicScanResult) (info : ZipInfo)
    (hnat : inNativePath info.filename = true) :
    ∀ f ∈ (scanEntry r info).findings, f ∉ r.findings →
      f.check_name ≠ "UNEXPECTED_BINARY" := by
  intro f hf hnew
  simp only [scanEntry] at hf
  split_ifs at hf <;> simp_all [List.mem_append, hiddenExecFinding] <;>
    rcases hf with hf | hf <;> simp_all

/-- C7 (amended): Check 1 emits the CRITICAL HIDDEN_EXECUTABLE finding for
every scanned entry (non-directory, extension outside the text/source skip
list, at least 4 header bytes) whose magic bytes identify an executable
while its extension is not `.exe`/`.dll`/`.so`/`.dylib` — regardless of
native-module paths. The native-path whitelist governs only the separate
HIGH UNEXPECTED_BINARY finding of Check 3: a whitelisted entry adds no
UNEXPECTED_BINARY finding when processed. -/
theorem C7_hidden_executable_amended (a : Archive) (info : ZipInfo)
    (hmem : info ∈ a.entries) (hzip : a.is_valid_zip = true)
    (hdir : info.is_dir = false)
    (hskip : strLower (getExtension info.filename) ∉ SKIP_EXTS)
    (hlen : ¬ (info.data.take 32).length < 4)
    (hmag : identify_magic (info.data.take 32) ∈ SUSPICIOUS_BINARY_TYPES)
    (hexe : strLower (getExtension info.filename) ∉ [".exe", ".dll", ".so", ".dylib"]) :
    hiddenExecFinding info.filename (identify_magic (info.data.take 32))
      ∈ (ForensicChecker.scan_vsix a).findings
    ∧ ∀ (r : ForensicScanResult), inNativePath info.filename = true →
        ∀ f ∈ (scanEntry r info).findings, f ∉ r.findings →
          f.check_name ≠ "UNEXPECTED_BINARY" := by
  constructor
  · have hx : ∀ r', hiddenExecFinding info.filename (identify_magic (info.data.take 32))
        ∈ (scanEntry r' info).findings :=
      fun r' => scanEntry_hidden r' info hdir hskip hlen hmag hexe
    have h := foldl_scan_mem a.entries info hmem _ hx {}
    simp only [ForensicChecker.scan_vsix, hzip, if_pos]
    exact h
  · intro r hnat
    exact scanEntry_no_unexpected r info hnat

/-- An archive hiding a Windows executable behind a PNG name inside
`node_modules`. -/
def c7Archive : Archive :=
  { entries := [{ filename := "node_modules/pkg/logo.png", data := [77, 90, 144, 0] }] }

/-- C7 is false as stated: an executable payload at the whitelisted path
`node_modules/pkg/logo.png` still produces the CRITICAL HIDDEN_EXECUTABLE
finding — the whitelist only suppresses the UNEXPECTED_BINARY finding. -/
theorem C7_native_whitelist_counterexample :
    inNativePath "node_modules/pkg/logo.png" = true
    ∧ hiddenExecFinding "node_modules/pkg/logo.png" "PE/EXE/DLL"
        ∈ (ForensicChecker.scan_vsix c7Archive).findings
    ∧ (ForensicChecker.scan_vsix c7Archive).hidden_executables
        = ["node_modules/pkg/logo.png"]
    ∧ ∀ f ∈ (ForensicChecker.scan_vsix c7Archive).findings,
        f.check_name ≠ "UNEXPECTED_BINARY" := by
  refine ⟨by decide, by decide, by decide, by decide⟩

/-- Witness for the amended C7 at the concrete `node_modules` archive. -/
theorem C7_hidden_executable_witness :
    hiddenExecFinding "node_modules/pkg/logo.png"
        (identify_magic ((List.take 32 [77, 90, 144, 0])))
      ∈ (ForensicChecker.scan_vsix c7Archive).findings
    ∧ ∀ (r : ForensicScanResult), inNativePath "node_modules/pkg/logo.png" = true →
        ∀ f ∈ (scanEntry r { filename := "node_modules/pkg/logo.png",
                             data := [77, 90, 144, 0] }).findings,
          f ∉ r.findings → f.check_name ≠ "UNEXPECTED_BINARY" :=
  C7_hidden_executable_amended c7Archive
    { filename := "node_modules/pkg/logo.png", data := [77, 90, 144, 0] }
    (by simp [c7Archive]) rfl rfl (by decide) (by decide) (by decide) (by decide)


/-- `ThreatReport` (threat_report.py lines 24-94) restricted to the fields
the scoring/verdict methods read; `critical_count` models
`len(report.critical_findings)` after `_categorize_findings`. -/
structure ThreatReport where
  install_count : ℕ := 0
  average_rating : ℚ := 0
  publisher_verified : Bool := false
  is_blocklisted : Bool := false
  ai_vibe_score : ℚ := 0
  static_analysis_score : ℚ := 0
  behavioral_score : ℚ := 0
  trust_signal_score : ℚ := 0
  composite_score : ℚ := 0
  verdict : String := "UNKNOWN"
  confidence : ℚ := 0
  critical_count : ℕ := 0
  campaign_score : ℚ := 0
  vt_detection_count : ℕ := 0
  vt_total_engines : ℕ := 0
  vt_known_malicious : Bool := false
  deriving Repr, DecidableEq

/-- The report-level scoring weights of `ThreatReportGenerator.__init__`
(threat_report.py lines 107-114), defaults 0.35/0.25/0.25/0.15. -/
structure ReportWeights where
  ai_vibe : ℚ := 35/100
  static : ℚ := 25/100
  behavioral : ℚ := 25/100
  trust : ℚ := 15/100
  deriving Repr, DecidableEq

/-- The default report weights. -/
def defaultReportWeights : ReportWeights := {}

/-- A VirusTotal `EnrichmentResult` restricted to the fields `generate`
reads. -/
structure VtEnrichment where
  detection_count : ℕ := 0
  total_engines : ℕ := 0
  malicious : Bool := false
  deriving Repr, DecidableEq

/-- `ThreatReportGenerator._calculate_trust_score` (threat_report.py lines
224-259): 0.5 baseline, blocklist short-circuit to 1.0, the install-count
`elif` chain, publisher verification, rating, clamp to [0,1]. Note the
`elif` ordering: `install_count < 100` is tested before
`install_count < 10`, so the `+0.25` branch is unreachable. -/
def calculateTrustScore (r : ThreatReport) : ℚ :=
  if r.is_blocklisted then 1
  else
    let s0 : ℚ := 1/2
    let s1 :=
      if 1000000 ≤ r.install_count then s0 - 3/10
      else if 100000 ≤ r.install_count then s0 - 2/10
      else if 10000 ≤ r.install_count then s0 - 1/10
      else if r.install_count < 100 then s0 + 15/100
      else if r.install_count < 10 then s0 + 25/100
      else s0
    let s2 := if r.publisher_verified then s1 - 15/100 else s1 + 1/10
    let s3 :=
      if 4 ≤ r.average_rating then s2 - 5/100
      else if r.average_rating < 2 ∧ 0 < r.average_rating then s2 + 1/10
      else s2
    max 0 (min 1 s3)

/-- `ThreatReportGenerator._calculate_composite` (threat_report.py lines
301-322): blocklisted → 1.0; otherwise the weighted sum of the four
sub-scores plus the VT boost `min(d/10, 0.5)` (only when VT flags the file
malicious) plus `campaign_score * 0.1`, capped at 1.0. -/
def calculateComposite (w : ReportWeights) (r : ThreatReport) : ℚ :=
  if r.is_blocklisted then 1
  else
    let vt_boost : ℚ :=
      if r.vt_known_malicious then min ((r.vt_detection_count : ℚ) / 10) (1/2) else 0
    min (r.ai_vibe_score * w.ai_vibe
      + r.static_analysis_score * w.static
      + r.behavioral_score * w.behavioral
      + r.trust_signal_score * w.trust
      + vt_boost
      + r.campaign_score * (1/10)) 1

/-- `ThreatReportGenerator._determine_verdict` (threat_report.py lines
324-336). -/
def determineVerdict (r : ThreatReport) : String :=
  if r.is_blocklisted then "MALICIOUS"
  else if r.vt_known_malicious = true ∧ 5 ≤ r.vt_detection_count then "MALICIOUS"
  else if 7/10 ≤ r.composite_score then "MALICIOUS"
  else if 35/100 ≤ r.composite_score then "SUSPICIOUS"
  else if 0 < r.critical_count then "SUSPICIOUS"
  else "CLEAN"

/-- `ThreatReportGenerator._determine_confidence` (threat_report.py lines
338-352). -/
def determineConfidence (r : ThreatReport) : ℚ :=
  min ((1:ℚ)/2
    + (if 0 < r.vt_total_engines then 15/100 else 0)
    + (if 0 < r.ai_vibe_score then 1/10 else 0)
    + (if 0 < r.behavioral_score then 15/100 else 0)
    + (if r.is_blocklisted then 3/10 else 0)) 1

/-- The findings `_categorize_findings` collects from a triage result
(metadata dicts verbatim, forensic/YARA findings projected). -/
def reportFindings (t : TriageResult) : List Finding :=
  (match t.metadata_result with | some m => m.findings | none => [])
  ++ (match t.forensic_result with
      | some f => f.findings.map (fun g =>
          { severity := g.severity, check_name := g.check_name })
      | none => [])
  ++ (match t.yara_result with
      | some y => y.findings.map (fun g =>
          { severity := g.severity, check_name := g.rule_name })
      | none => [])

/-- The report state after `generate` has folded in the trust score, the
triage sub-scores (`static` is the max of the three static risks), the VT
enrichment and the cross-reference campaign score (threat_report.py lines
178-204); `base` is the report as loaded from the DB row. -/
def reportAfterSignals (base : ThreatReport) (triage : Option TriageResult)
    (vt : Option VtEnrichment) (crossref : Option ℚ) : ThreatReport :=
  let r1 := { base with trust_signal_score := calculateTrustScore base }
  let r2 := match triage with
    | some t =>
      { r1 with
        ai_vibe_score := t.ai_risk
        static_analysis_score := max t.metadata_risk (max t.forensic_risk t.yara_risk)
        critical_count :=
          ((reportFindings t).filter (fun f => f.severity = "CRITICAL")).length }
    | none => r1
  let r3 := match vt with
    | some v =>
      { r2 with
        vt_detection_count := v.detection_count
        vt_total_engines := v.total_engines
        vt_known_malicious := v.malicious }
    | none => r2
  match crossref with
  | some c => { r3 with campaign_score := c }
  | none => r3

/-- `ThreatReportGenerator.generate` (threat_report.py lines 116-222) after
the DB fetch: fold in the signals, then composite, verdict and confidence
(persistence is out of scope). -/
def ThreatReportGenerator.generate (w : ReportWeights) (base : ThreatReport)
    (triage : Option TriageResult) (vt : Option VtEnrichment)
    (crossref : Option ℚ) : ThreatReport :=
  let r4 := reportAfterSignals base triage vt crossref
  let r5 := { r4 with composite_score := calculateComposite w r4 }
  let r6 := { r5 with verdict := determineVerdict r5 }
  { r6 with confidence := determineConfidence r6 }


/-- The claim's formula, written from the spec's words (refinement
comparison for C8): final composite = triage composite + reputation bonus
`min(d/10, 0.5)` + campaign bonus `campaign * 0.1`, capped at 1.0. -/
def specReportComposite (triageComposite : ℚ) (d : ℕ) (campaign : ℚ) : ℚ :=
  min (triageComposite + min ((d : ℚ) / 10) (1/2) + campaign * (1/10)) 1

/-- Stage outcomes giving metadata risk 1 and every other risk 0. -/
def c8Stages : StageOutcomes :=
  { metadataO := .ok { risk_score := 1 }, forensicO := .ok {}, yaraO := .ok {},
    aiO := .ok { risk_score? := some 0 } }

/-- The triage run on those outcomes (triage composite 11/40). -/
def c8Triage : TriageResult := TriagePipeline.run defaultWeights false "pkg.vsix" c8Stages

/-- A non-blocklisted extension row: 500 installs, unverified publisher,
no rating. -/
def c8Base : ThreatReport := { install_count := 500 }

/-- C8 is false as stated: the report-level composite is not the triage
composite plus the two bonuses — `generate` rebuilds the weighted sum with
`static = max(metadata, forensic, yara)` and a trust-signal term, giving
17/50 where the claimed formula gives the triage composite 11/40 (both
bonuses being 0 here). -/
theorem C8_report_composite_counterexample :
    c8Triage.composite_risk = 11/40
    ∧ (ThreatReportGenerator.generate defaultReportWeights c8Base
        (some c8Triage) none none).composite_score = 17/50
    ∧ specReportComposite c8Triage.composite_risk 0 0 = 11/40
    ∧ ((17:ℚ)/50) ≠ 11/40 := by
  have h1 : c8Triage.composite_risk = 11/40 := by
    show (TriagePipeline.run defaultWeights false "pkg.vsix" c8Stages).composite_risk = 11/40
    rw [run_composite]
    norm_num [compositeOf, defaultWeights, aiRiskOf, metaRiskOf, forensicRiskOf,
      yaraRiskOf, c8Stages, min_def]
  refine ⟨h1, ?_, ?_, by norm_num⟩
  · show calculateComposite defaultReportWeights
        (reportAfterSignals c8Base (some c8Triage) none none) = 17/50
    have hai : c8Triage.ai_risk = 0 := rfl
    have hmr : c8Triage.metadata_risk = 1 := rfl
    have hfr : c8Triage.forensic_risk = 0 := rfl
    have hyr : c8Triage.yara_risk = 0 := rfl
    simp only [calculateComposite, reportAfterSignals, c8Base, calculateTrustScore,
      hai, hmr, hfr, hyr]
    norm_num [defaultReportWeights, min_def, max_def]
  · rw [h1]
    norm_num [specReportComposite, min_def]

/-- C8 (amended): for a non-blocklisted extension the final composite is
the report-level weighted sum — AI risk, the maximum of the three static
triage risks, the behavioral score and the recomputed trust-signal score,
each under its configured weight — plus the reputation bonus
`min(d/10, 0.5)` (only when VT flags the file malicious) plus the campaign
bonus `campaign * 0.1`, capped at 1.0; a blocklisted extension scores
exactly 1.0. -/
theorem C8_report_composite_amended (w : ReportWeights) (base : ThreatReport)
    (t : TriageResult) (v : VtEnrichment) (c : ℚ)
    (hb : base.is_blocklisted = false) :
    (ThreatReportGenerator.generate w base (some t) (some v) (some c)).composite_score
      = min (t.ai_risk * w.ai_vibe
          + max t.metadata_risk (max t.forensic_risk t.yara_risk) * w.static
          + base.behavioral_score * w.behavioral
          + calculateTrustScore base * w.trust
          + (if v.malicious = true then min ((v.detection_count : ℚ) / 10) (1/2) else 0)
          + c * (1/10)) 1
    ∧ ∀ base2 : ThreatReport, base2.is_blocklisted = true →
        (ThreatReportGenerator.generate w base2 (some t) (some v) (some c)).composite_score
          = 1 := by
  constructor
  · show calculateComposite w (reportAfterSignals base (some t) (some v) (some c)) = _
    simp only [calculateComposite, reportAfterSignals, hb]
    norm_num
  · intro base2 hb2
    show calculateComposite w (reportAfterSignals base2 (some t) (some v) (some c)) = 1
    simp only [calculateComposite, reportAfterSignals, hb2]
    norm_num

/-- A concrete VirusTotal enrichment flagging the file malicious. -/
def c8Vt : VtEnrichment := { detection_count := 3, total_engines := 70, malicious := true }

/-- Witness for the amended C8 at the concrete report inputs. -/
theorem C8_report_composite_witness :
    (ThreatReportGenerator.generate defaultReportWeights c8Base (some c8Triage)
        (some c8Vt) (some (1/2))).composite_score
      = min (c8Triage.ai_risk * defaultReportWeights.ai_vibe
          + max c8Triage.metadata_risk (max c8Triage.forensic_risk c8Triage.yara_risk)
              * defaultReportWeights.static
          + c8Base.behavioral_score * defaultReportWeights.behavioral
          + calculateTrustScore c8Base * defaultReportWeights.trust
          + (if c8Vt.malicious = true
             then min ((c8Vt.detection_count : ℚ) / 10) (1/2) else 0)
          + (1/2) * (1/10)) 1
    ∧ ∀ base2 : ThreatReport, base2.is_blocklisted = true →
        (ThreatReportGenerator.generate defaultReportWeights base2 (some c8Triage)
            (some c8Vt) (some (1/2))).composite_score = 1 :=
  C8_report_composite_amended defaultReportWeights c8Base c8Triage c8Vt (1/2) rfl

/-- A non-blocklisted report row with 5 installs, unverified publisher and
no rating — the claim's "fewer than 10 installs" case. -/
def c9Report : ThreatReport := { install_count := 5 }

/-- C9's failing input: because `install_count < 100` is tested before
`install_count < 10` in the `elif` chain, the `+0.25` branch is dead code;
an extension with 5 installs receives `+0.15` (score 3/4), not the `+0.25`
the spec's bracket table promises (score 17/20), and is scored identically
to one with 50 installs. -/
theorem C9_trust_small_installs_bug :
    calculateTrustScore c9Report = 3/4
    ∧ calculateTrustScore { install_count := 50 } = 3/4
    ∧ ((1:ℚ)/2 + 25/100 + 1/10) = 17/20
    ∧ ((3:ℚ)/4) ≠ 17/20 := by
  refine ⟨?_, ?_, by norm_num, by norm_num⟩
  · norm_num [calculateTrustScore, c9Report, max_def, min_def]
  · norm_num [calculateTrustScore, max_def, min_def]

end Detox
